import Mathlib

set_option maxHeartbeats 1000000

namespace Luco

/-!
Shallow embedding of the luco-backend SMS platform (FastAPI + SQLAlchemy).
Money amounts are embedded as exact integers: every amount the code
handles is a whole number of currency units (the unit cost is the float
literal 32.0 and balances are sums of such debits, credits and top-ups),
and Python float arithmetic on whole numbers of this size is exact, so the
integer model matches the code.  Datetimes are embedded as integer instants
(seconds); a naive datetime carries a wall-clock integer, localized by the
code to the Africa/Nairobi zone (UTC+3, no DST).
-/

abbrev Money := ℤ

/-- `models.Users`: id, clerk_user_id, email, wallet_balance (default 0.0). -/
structure User where
  id : String
  clerk_user_id : String
  email : String
  username : String
  wallet_balance : Money
deriving DecidableEq, Repr

/-- `models.Transactions`: append-only ledger row.  `sched_ref` is a ghost
field recording, for the two `sms_refund` emission sites
(`cancel_scheduled_message` and the failure branch of
`process_scheduled_messages`), which ScheduledMessages row the refund was
issued for; it is `none` for every other transaction.  The Python row has
no such column; the ghost field only instruments which syntactic site
produced the row. -/
structure Transaction where
  user_id : String
  amount : Money
  transaction_type : String
  sched_ref : Option Nat
deriving DecidableEq, Repr

/-- `models.Messages` (table sms_messages). -/
structure Message where
  id : Nat
  user_id : String
  recipient : String
  message : String
  sender_id : Option String
  status : String
  cost : Money
deriving DecidableEq, Repr

/-- `models.DeliveryReports`. -/
structure DeliveryReport where
  sms_id : Nat
  status : String
deriving DecidableEq, Repr

/-- `models.ScheduledMessages`. -/
structure ScheduledMessage where
  id : Nat
  user_id : String
  recipient : String
  message : String
  sender_id : Option String
  scheduled_time : Int
  status : String
  cost : Money
  attempts : Nat
  last_attempt_at : Option Int
  error_message : Option String
  sent_message_id : Option Nat
  processed_at : Option Int
deriving DecidableEq, Repr

/-- `models.Contact`. -/
structure Contact where
  id : Nat
  user_id : String
  phone_number : String
  is_active : Bool
deriving DecidableEq, Repr

/-- `models.ContactGroup`. -/
structure ContactGroup where
  id : Nat
  user_id : String
  name : String
deriving DecidableEq, Repr

/-- A row of the `contact_group_members` association table. -/
structure GroupMember where
  contact_id : Nat
  group_id : Nat
deriving DecidableEq, Repr

/-- The database state: one list per table, in row (insertion) order, plus
the autoincrement counters for integer primary keys. -/
structure DB where
  users : List User
  transactions : List Transaction
  messages : List Message
  delivery_reports : List DeliveryReport
  scheduled : List ScheduledMessage
  contacts : List Contact
  groups : List ContactGroup
  members : List GroupMember
  nextMessageId : Nat
  nextScheduleId : Nat
  nextContactId : Nat
  nextGroupId : Nat
deriving DecidableEq, Repr

/-- The empty database. -/
def initDB : DB :=
  { users := [], transactions := [], messages := [], delivery_reports := []
    scheduled := [], contacts := [], groups := [], members := []
    nextMessageId := 1, nextScheduleId := 1, nextContactId := 1, nextGroupId := 1 }

/-- Errors raised by the routes (HTTPException flavours and pydantic
validation failures). -/
inductive ApiError where
  | insufficientBalance
  | notFound (what : String)
  | badRequest (msg : String)
  | validation (msg : String)
  | serverError (msg : String)
deriving DecidableEq, Repr

/-- A Python datetime: either timezone-aware (an absolute instant) or naive
(a wall-clock reading with no zone attached). -/
inductive PyDateTime where
  | aware (instant : Int)
  | naive (wall : Int)
deriving DecidableEq, Repr

/-- Africa/Nairobi is UTC+3 with no daylight saving. -/
def eatOffsetSeconds : Int := 3 * 3600

/-- `EAT_TZ.localize` on a naive datetime interprets the wall-clock reading
in the EAT zone; an aware datetime already denotes an instant. -/
def localizeEAT : PyDateTime → Int
  | .aware i => i
  | .naive w => w - eatOffsetSeconds

/-- Python `str.strip()`: drop whitespace from both ends.  Written on the
character list so that concrete inputs evaluate definitionally. -/
def pyStrip (s : String) : String :=
  ⟨((s.data.dropWhile Char.isWhitespace).reverse.dropWhile Char.isWhitespace).reverse⟩

/-- Python `len` on a string: the number of characters. -/
def pyLen (s : String) : Nat :=
  s.data.length

/-- Python `str.isdigit`: true on a nonempty all-digit string. -/
def pyIsDigit (s : String) : Bool :=
  s.data ≠ [] ∧ s.data.all Char.isDigit

/-- Python `str.startswith('+')`. -/
def pyStartsWithPlus (s : String) : Bool :=
  match s.data with
  | c :: _ => c = '+'
  | [] => false

/-- `ScheduleSMSRequest.validate_message` (schedulesms.py lines 53-60):
`not v or not v.strip()` rejects empty/whitespace-only, the length bound is
checked on the unstripped value, and the stripped value is returned. -/
def validate_message (v : String) : Except String String :=
  if pyStrip v = "" then .error "Message cannot be empty"
  else if pyLen v > 160 then .error "Message cannot exceed 160 characters"
  else .ok (pyStrip v)

/-- `ScheduleSMSRequest.validate_recipient` (schedulesms.py lines 62-71). -/
def validate_recipient (v : String) : Except String String :=
  if ¬ pyStartsWithPlus v then .error "Phone number must start with +"
  else if ¬ pyIsDigit ⟨v.data.drop 1⟩ then
    .error "Phone number must contain only digits after +"
  else if ¬ (10 ≤ pyLen v ∧ pyLen v ≤ 15) then
    .error "Phone number must be between 10 and 15 characters"
  else .ok v

/-- `validate_time` (schedulesms.py lines 73-82): localize a naive stamp to
EAT, then require it to be strictly after `now`. -/
def validate_time (now : Int) (v : PyDateTime) : Except String Int :=
  if localizeEAT v ≤ now then .error "Scheduled time must be in the future"
  else .ok (localizeEAT v)

/-- The raw body of POST /api/v1/schedule/. -/
structure ScheduleSMSRequest where
  message : String
  recipient : String
  scheduled_time : PyDateTime
  sender_id : Option String
deriving DecidableEq, Repr

/-- A request that passed pydantic validation: message trimmed, time
localized. -/
structure ValidScheduleRequest where
  message : String
  recipient : String
  scheduled_time : Int
  sender_id : Option String
deriving DecidableEq, Repr

/-- Pydantic validation of ScheduleSMSRequest: field validators run in
declaration order (message, recipient, scheduled_time). -/
def ScheduleSMSRequest.validate (now : Int) (r : ScheduleSMSRequest) :
    Except String ValidScheduleRequest :=
  match validate_message r.message with
  | .error e => .error e
  | .ok m =>
    match validate_recipient r.recipient with
    | .error e => .error e
    | .ok rcp =>
      match validate_time now r.scheduled_time with
      | .error e => .error e
      | .ok t => .ok ⟨m, rcp, t, r.sender_id⟩

/-- The raw body of POST /api/v1/schedule/bulk. -/
structure BulkScheduleRequest where
  message : String
  group_ids : List Nat
  scheduled_time : PyDateTime
  sender_id : Option String
deriving DecidableEq, Repr

/-- Validated bulk request (message and scheduled_time validators). -/
structure ValidBulkRequest where
  message : String
  group_ids : List Nat
  scheduled_time : Int
  sender_id : Option String
deriving DecidableEq, Repr

/-- Pydantic validation of BulkScheduleSMSRequest. -/
def BulkScheduleRequest.validate (now : Int) (r : BulkScheduleRequest) :
    Except String ValidBulkRequest :=
  match validate_message r.message with
  | .error e => .error e
  | .ok m =>
    match validate_time now r.scheduled_time with
    | .error e => .error e
    | .ok t => .ok ⟨m, r.group_ids, t, r.sender_id⟩

/-- The raw body of PUT /api/v1/schedule/schedule_id. -/
structure ScheduleUpdateRequest where
  message : Option String
  scheduled_time : Option PyDateTime
  sender_id : Option String
deriving DecidableEq, Repr

/-- Validated update request: the scheduled_time validator runs only when
the field is present. -/
structure ValidUpdateRequest where
  message : Option String
  scheduled_time : Option Int
  sender_id : Option String
deriving DecidableEq, Repr

/-- Pydantic validation of ScheduleUpdateRequest. -/
def ScheduleUpdateRequest.validate (now : Int) (r : ScheduleUpdateRequest) :
    Except String ValidUpdateRequest :=
  match r.scheduled_time with
  | none => .ok ⟨r.message, none, r.sender_id⟩
  | some v =>
    match validate_time now v with
    | .error e => .error e
    | .ok t => .ok ⟨r.message, some t, r.sender_id⟩

/-- `TopupRequest.validate_amount` (schema.py lines 42-51). -/
def validate_topup_amount (v : Money) : Except String Money :=
  if v ≤ 0 then .error "Amount must be greater than 0"
  else if v > 1000000 then .error "Amount cannot exceed 1,000,000"
  else .ok v

/-! ### Database helpers shared by the routes -/

/-- `db.query(Users).filter(Users.id == user_id).first()`. -/
def findUser (db : DB) (uid : String) : Option User :=
  db.users.find? (fun u => u.id = uid)

/-- Apply a balance delta to the one user row with the given id. -/
def updateUserBalance (db : DB) (uid : String) (delta : Money) : DB :=
  { db with users := db.users.map (fun u =>
      if u.id = uid then { u with wallet_balance := u.wallet_balance + delta } else u) }

/-- `db.add(transaction)` on the append-only ledger. -/
def appendTxn (db : DB) (t : Transaction) : DB :=
  { db with transactions := db.transactions ++ [t] }

/-- `verify_schedule_ownership` (schedulesms.py lines 168-180). -/
def findSchedule (db : DB) (sid : Nat) (uid : String) : Option ScheduledMessage :=
  db.scheduled.find? (fun s => s.id = sid ∧ s.user_id = uid)

/-- Write through to the scheduled_messages row with the given id. -/
def updateScheduleRow (db : DB) (sid : Nat) (f : ScheduledMessage → ScheduledMessage) : DB :=
  { db with scheduled := db.scheduled.map (fun s => if s.id = sid then f s else s) }

/-! ### Wallet routes (sendsms.py) -/

/-- `topup_wallet` (sendsms.py lines 97-120), after TopupRequest
validation: credit the balance and append a matching `topup` ledger row.
An error result leaves the session uncommitted, so the pre-state is
returned unchanged. -/
def topup_wallet (db : DB) (uid : String) (amount : Money) :
    Except ApiError Transaction × DB :=
  match findUser db uid with
  | none => (.error (.notFound "User not found"), db)
  | some _ =>
    let t : Transaction := ⟨uid, amount, "topup", none⟩
    (.ok t, appendTxn (updateUserBalance db uid amount) t)

/-- The topup route: pydantic validation of the amount, then the handler. -/
def topup_wallet_route (db : DB) (uid : String) (amount : Money) :
    Except ApiError Transaction × DB :=
  match validate_topup_amount amount with
  | .error e => (.error (.validation e), db)
  | .ok a => topup_wallet db uid a

/-! ### Immediate send routes (sendsms.py) -/

/-- Build the `pending` Message rows of an immediate send, one per
recipient, with sequential autoincrement ids. -/
def mkPendingMessages (uid : String) (msg : String) (sender : Option String)
    (startId : Nat) : List String → List Message
  | [] => []
  | r :: rest =>
    ⟨startId, uid, r, msg, sender, "pending", 32⟩ ::
      mkPendingMessages uid msg sender (startId + 1) rest

/-- `send_sms` (sendsms.py lines 143-203): reserve `count * 32.0`, append
one `sms_send` ledger row, create one pending Message per recipient.  The
gateway dispatch happens later in a background task
(`process_sms_sending`). -/
def send_sms (db : DB) (uid : String) (msg : String) (recipients : List String)
    (sender : Option String) : Except ApiError (List Message) × DB :=
  match findUser db uid with
  | none => (.error (.notFound "User not found"), db)
  | some user =>
    let total : Money := (recipients.length : Money) * 32
    if user.wallet_balance < total then (.error .insufficientBalance, db)
    else
      let db1 := appendTxn (updateUserBalance db uid (-total)) ⟨uid, -total, "sms_send", none⟩
      let msgs := mkPendingMessages uid msg sender db.nextMessageId recipients
      (.ok msgs,
        { db1 with messages := db1.messages ++ msgs
                   nextMessageId := db.nextMessageId + recipients.length })

/-- `process_sms_sending` (sendsms.py lines 51-82): the background task.
For each listed message id, the gateway outcome decides the new status:
`some st` models a response whose first recipient reports `st` (or the
default "sent"); `none` models an exception, setting "failed".  No wallet
or ledger change. -/
def process_sms_sending (db : DB) (ids : List Nat) (outcome : Nat → Option String) : DB :=
  { db with messages := db.messages.map (fun m =>
      if m.id ∈ ids then
        { m with status := match outcome m.id with
                           | some st => st
                           | none => "failed" }
      else m) }

/-! ### Scheduled send routes (schedulesms.py) -/

/-- `schedule_sms` (schedulesms.py lines 184-223): the handler body after
pydantic validation.  Balance check, debit of the fixed cost 32.0, one
`sms_scheduled` ledger row, one new `pending` ScheduledMessages row. -/
def schedule_sms (db : DB) (uid : String) (req : ValidScheduleRequest) :
    Except ApiError ScheduledMessage × DB :=
  match findUser db uid with
  | none => (.error (.notFound "User not found"), db)
  | some user =>
    let cost : Money := 32
    if user.wallet_balance < cost then (.error .insufficientBalance, db)
    else
      let db1 := appendTxn (updateUserBalance db uid (-cost)) ⟨uid, -cost, "sms_scheduled", none⟩
      let s : ScheduledMessage :=
        { id := db.nextScheduleId, user_id := uid, recipient := req.recipient
          message := req.message, sender_id := req.sender_id
          scheduled_time := req.scheduled_time, status := "pending", cost := cost
          attempts := 0, last_attempt_at := none, error_message := none
          sent_message_id := none, processed_at := none }
      (.ok s, { db1 with scheduled := db1.scheduled ++ [s]
                         nextScheduleId := db.nextScheduleId + 1 })

/-- POST /api/v1/schedule/: pydantic validation, then the handler. -/
def schedule_sms_route (db : DB) (uid : String) (now : Int) (raw : ScheduleSMSRequest) :
    Except ApiError ScheduledMessage × DB :=
  match raw.validate now with
  | .error e => (.error (.validation e), db)
  | .ok req => schedule_sms db uid req

/-- The recipient-resolution query of `schedule_bulk_sms` and
`send_bulk_sms`: contacts joined to their groups, filtered to the selected
group ids owned by the calling user and to active contacts, DISTINCT on the
contact entity.  Embedded as a scan of the contacts table (each contact row
appears once, in table order) keeping the rows with at least one qualifying
membership. -/
def contactInSelectedGroups (db : DB) (uid : String) (groupIds : List Nat)
    (c : Contact) : Bool :=
  db.members.any (fun m => m.contact_id = c.id ∧
    db.groups.any (fun g => g.id = m.group_id ∧ g.id ∈ groupIds ∧ g.user_id = uid))

/-- The deduplicated union of active contacts across the selected groups. -/
def resolveGroupContacts (db : DB) (uid : String) (groupIds : List Nat) :
    List Contact :=
  db.contacts.filter (fun c => c.is_active ∧ contactInSelectedGroups db uid groupIds c)

/-- Build the bulk ScheduledMessages rows, one per resolved contact, each
with unit cost 32.0 and sequential autoincrement ids. -/
def mkBulkSchedules (uid : String) (msg : String) (sender : Option String)
    (t : Int) (startId : Nat) : List Contact → List ScheduledMessage
  | [] => []
  | c :: rest =>
    { id := startId, user_id := uid, recipient := c.phone_number, message := msg
      sender_id := sender, scheduled_time := t, status := "pending", cost := 32
      attempts := 0, last_attempt_at := none, error_message := none
      sent_message_id := none, processed_at := none } ::
      mkBulkSchedules uid msg sender t (startId + 1) rest

/-- `schedule_bulk_sms` (schedulesms.py lines 225-285): resolve the
contacts, fail if none, reserve `count * 32.0` as a single debit with one
`sms_scheduled` ledger row, create one pending row per resolved contact. -/
def schedule_bulk_sms (db : DB) (uid : String) (req : ValidBulkRequest) :
    Except ApiError (List ScheduledMessage) × DB :=
  match findUser db uid with
  | none => (.error (.notFound "User not found"), db)
  | some user =>
    let contacts := resolveGroupContacts db uid req.group_ids
    if contacts.isEmpty then
      (.error (.badRequest "No active contacts found in selected groups"), db)
    else
      let total : Money := (contacts.length : Money) * 32
      if user.wallet_balance < total then (.error .insufficientBalance, db)
      else
        let db1 := appendTxn (updateUserBalance db uid (-total))
          ⟨uid, -total, "sms_scheduled", none⟩
        let newRows := mkBulkSchedules uid req.message req.sender_id
          req.scheduled_time db.nextScheduleId contacts
        (.ok newRows,
          { db1 with scheduled := db1.scheduled ++ newRows
                     nextScheduleId := db.nextScheduleId + contacts.length })

/-- POST /api/v1/schedule/bulk: pydantic validation, then the handler. -/
def schedule_bulk_sms_route (db : DB) (uid : String) (now : Int)
    (raw : BulkScheduleRequest) : Except ApiError (List ScheduledMessage) × DB :=
  match raw.validate now with
  | .error e => (.error (.validation e), db)
  | .ok req => schedule_bulk_sms db uid req

/-- The field application of `update_scheduled_message` (schedulesms.py
lines 330-335): a present nonempty message, a present scheduled_time and a
present (possibly empty) sender_id are applied, mirroring the Python
truthiness tests. -/
def applyUpdate (req : ValidUpdateRequest) (s : ScheduledMessage) : ScheduledMessage :=
  let s1 := match req.message with
            | some m => if m = "" then s else { s with message := m }
            | none => s
  let s2 := match req.scheduled_time with
            | some t => { s1 with scheduled_time := t }
            | none => s1
  match req.sender_id with
  | some sd => { s2 with sender_id := some sd }
  | none => s2

/-- `update_scheduled_message` (schedulesms.py lines 314-339): only pending
rows may be edited; the mutable fields are merged by `applyUpdate`. -/
def update_scheduled_message (db : DB) (sid : Nat) (uid : String)
    (req : ValidUpdateRequest) : Except ApiError ScheduledMessage × DB :=
  match findSchedule db sid uid with
  | none => (.error (.notFound "Scheduled message not found or access denied"), db)
  | some s =>
    if s.status ≠ "pending" then
      (.error (.badRequest "Can only update pending messages"), db)
    else
      (.ok (applyUpdate req s), updateScheduleRow db sid (fun _ => applyUpdate req s))

/-- PUT /api/v1/schedule/schedule_id: pydantic validation, then handler. -/
def update_scheduled_message_route (db : DB) (sid : Nat) (uid : String) (now : Int)
    (raw : ScheduleUpdateRequest) : Except ApiError ScheduledMessage × DB :=
  match raw.validate now with
  | .error e => (.error (.validation e), db)
  | .ok req => update_scheduled_message db sid uid req

/-- `cancel_scheduled_message` (schedulesms.py lines 341-373): only a
pending row may be cancelled; the reserved cost is credited back, one
`sms_refund` ledger row is appended (ghost-tagged with the schedule id),
and the row becomes `cancelled`. -/
def cancel_scheduled_message (db : DB) (sid : Nat) (uid : String) :
    Except ApiError Money × DB :=
  match findSchedule db sid uid with
  | none => (.error (.notFound "Scheduled message not found or access denied"), db)
  | some s =>
    if s.status ≠ "pending" then
      (.error (.badRequest "Can only cancel pending messages"), db)
    else
      match findUser db uid with
      | none => (.error (.notFound "User not found"), db)
      | some _ =>
        let db1 := appendTxn (updateUserBalance db uid s.cost)
          ⟨uid, s.cost, "sms_refund", some s.id⟩
        (.ok s.cost, updateScheduleRow db1 sid (fun r => { r with status := "cancelled" }))

/-! ### The due-scan (schedulesms.py lines 377-432)

The scan is driven either by the APScheduler job `check_scheduled_sms` or
by the POST /api/v1/schedule/process-due endpoint.  The gateway is the
opaque `LucoSMS.send_message` call; `gw sid` tells whether the call for the
schedule with id `sid` returns normally, `gwErr sid` is the exception text
otherwise. -/

/-- The due query (lines 381-384): `status == "pending" and scheduled_time
<= now`, with no ORDER BY — the rows come back in table order. -/
def dueList (db : DB) (now : Int) : List ScheduledMessage :=
  db.scheduled.filter (fun s => s.status = "pending" ∧ s.scheduled_time ≤ now)

/-- Lines 392-394: the in-session claim writes on the row object —
`status = "processing"`, `attempts += 1`, `last_attempt_at = now` — using
the state of the queried object `s`, with no re-check of the stored row's
current status. -/
def claimedRow (now : Int) (s : ScheduledMessage) : ScheduledMessage :=
  { s with status := "processing", attempts := s.attempts + 1, last_attempt_at := some now }

/-- Write the claim of `s` through to the row with its id. -/
def claimRow (now : Int) (db : DB) (s : ScheduledMessage) : DB :=
  updateScheduleRow db s.id (fun _ => claimedRow now s)

/-- Lines 403-416, success case applied to the current row object. -/
def sentRow (now : Int) (mid : Nat) (r : ScheduledMessage) : ScheduledMessage :=
  { r with status := "sent", sent_message_id := some mid, processed_at := some now }

/-- Lines 419-420, failure case applied to the current row object. -/
def failedRow (e : String) (r : ScheduledMessage) : ScheduledMessage :=
  { r with status := "failed", error_message := some e }

/-- The post-send writes for item `s` (lines 396-430): on gateway success a
Message row is created and the schedule becomes `sent`; on a gateway
exception the schedule becomes `failed` and, if the user row is found, the
reserved cost is credited back with an `sms_refund` ledger row
(ghost-tagged with the schedule id). -/
def outcomeWrite (now : Int) (gwErr : Nat → String) (db : DB)
    (s : ScheduledMessage) (ok : Bool) : DB :=
  if ok then
    let mid := db.nextMessageId
    let msg : Message := ⟨mid, s.user_id, s.recipient, s.message, s.sender_id, "sent", s.cost⟩
    let db1 := { db with messages := db.messages ++ [msg], nextMessageId := mid + 1 }
    updateScheduleRow db1 s.id (sentRow now mid)
  else
    let db1 := updateScheduleRow db s.id (failedRow (gwErr s.id))
    match findUser db1 s.user_id with
    | some _ => appendTxn (updateUserBalance db1 s.user_id s.cost)
        ⟨s.user_id, s.cost, "sms_refund", some s.id⟩
    | none => db1

/-- One iteration of the scan loop (lines 391-430). -/
def processOne (now : Int) (gw : Nat → Bool) (gwErr : Nat → String)
    (db : DB) (s : ScheduledMessage) : DB :=
  outcomeWrite now gwErr (claimRow now db s) s (gw s.id)

/-- The scan loop run over an already-materialised query result `snap`.
When `snap` was read from `db` itself this is the single-session scan; when
`snap` was read from an earlier state it models a second session working
from a stale snapshot, its ORM objects written through by id at commit. -/
def processSnapshot (now : Int) (gw : Nat → Bool) (gwErr : Nat → String)
    (db : DB) (snap : List ScheduledMessage) : DB :=
  snap.foldl (processOne now gw gwErr) db

/-- `process_scheduled_messages` (lines 377-432): query the due rows, then
process each in query order; the one `db.commit()` happens after the loop. -/
def process_scheduled_messages (db : DB) (now : Int) (gw : Nat → Bool)
    (gwErr : Nat → String) : DB :=
  processSnapshot now gw gwErr db (dueList db now)

/-! ### Durability micro-steps of the scan

The scan body is flattened into its session writes and its commits so that
what is durable at each program point is explicit: a claim write, the
post-send writes of one item, or a commit.  `process_scheduled_messages`
contains exactly one commit, after the loop (line 432), and only when the
due list was nonempty (the early return on line 386-387 skips it). -/

inductive ScanStep where
  | claim (s : ScheduledMessage)
  | outcome (s : ScheduledMessage) (ok : Bool)
  | commit
deriving DecidableEq, Repr

/-- The loop body as steps: each due item contributes its claim write and,
after the gateway call, its outcome writes. -/
def scanBody (gw : Nat → Bool) : List ScheduledMessage → List ScanStep
  | [] => []
  | s :: rest => .claim s :: .outcome s (gw s.id) :: scanBody gw rest

/-- The whole scan as steps: early return on an empty due list, otherwise
the loop body followed by the single final commit. -/
def scanSteps (db : DB) (now : Int) (gw : Nat → Bool) : List ScanStep :=
  if dueList db now = [] then []
  else scanBody gw (dueList db now) ++ [.commit]

/-- Session state plus the durable store it commits to. -/
structure ScanState where
  session : DB
  durable : DB
deriving DecidableEq, Repr

/-- Execute scan steps: session writes mutate only the session; a commit
makes the session durable. -/
def execScanSteps (now : Int) (gwErr : Nat → String) :
    ScanState → List ScanStep → ScanState
  | st, [] => st
  | st, .claim s :: rest =>
    execScanSteps now gwErr ⟨claimRow now st.session s, st.durable⟩ rest
  | st, .outcome s ok :: rest =>
    execScanSteps now gwErr ⟨outcomeWrite now gwErr st.session s ok, st.durable⟩ rest
  | st, .commit :: rest =>
    execScanSteps now gwErr ⟨st.session, st.session⟩ rest

/-- The rows claimed by a step sequence, in order: the gateway is called
once per claim, right after it. -/
def claimsOf : List ScanStep → List ScheduledMessage
  | [] => []
  | .claim s :: rest => s :: claimsOf rest
  | .outcome _ _ :: rest => claimsOf rest
  | .commit :: rest => claimsOf rest

/-! ### Developer API send (devsms.py lines 101-193) -/

/-- The gateway response as seen by `client_send_sms`: an exception from
`send_message`, a falsy/keyless response, or per-recipient statuses from
`response['SMSMessageData']['Recipients']`. -/
inductive GwResponse where
  | exn (msg : String)
  | missingData
  | data (recips : List (String × String))
deriving DecidableEq, Repr

/-- Build the `sent` Message rows of a successful developer-API send. -/
def mkSentMessages (uid : String) (msg : String) (startId : Nat) :
    List String → List Message
  | [] => []
  | r :: rest =>
    ⟨startId, uid, r, msg, none, "sent", 32⟩ :: mkSentMessages uid msg (startId + 1) rest

/-- `client_send_sms` (devsms.py lines 101-193): balance check first; the
gateway is called before any wallet or table mutation; every failure
(exception, missing data, no recipient with status Success) raises inside
the try body, is caught, rolled back and surfaced as a 500 — the session
state is unchanged.  Only on success are the balance debit, the `sent`
Message rows, the single `sms_deduction` ledger row and the `delivered`
DeliveryReports applied. -/
def client_send_sms (db : DB) (uid : String) (msg : String)
    (recipients : List String) (resp : GwResponse) :
    Except ApiError (List Message) × DB :=
  match findUser db uid with
  | none => (.error (.notFound "User not found"), db)
  | some user =>
    let total : Money := (recipients.length : Money) * 32
    if user.wallet_balance < total then (.error .insufficientBalance, db)
    else
      match resp with
      | .exn e => (.error (.serverError e), db)
      | .missingData =>
        (.error (.serverError "SMS sending failed - No response data"), db)
      | .data rs =>
        if rs.isEmpty ∨ ¬ rs.any (fun r => r.2 = "Success") then
          (.error (.serverError "SMS sending failed - Delivery error"), db)
        else
          let db1 := updateUserBalance db uid (-total)
          let msgs := mkSentMessages uid msg db.nextMessageId recipients
          let db2 := { db1 with messages := db1.messages ++ msgs
                                nextMessageId := db.nextMessageId + recipients.length }
          let db3 := appendTxn db2 ⟨uid, -total, "sms_deduction", none⟩
          let db4 := { db3 with delivery_reports :=
            db3.delivery_reports ++ msgs.map (fun m => ⟨m.id, "delivered"⟩) }
          (.ok msgs, db4)

/-! ### User, contact and group creation -/

/-- The lazy user creation of `get_current_user` (authclerk.py lines
72-81): if no user matches the verified email, insert one with the default
wallet_balance 0.0.  A collision on the unique id/clerk/username columns
would make the insert fail, leaving the store unchanged. -/
def ensure_user (db : DB) (uid clerk email username : String) : DB :=
  match db.users.find? (fun u => u.email = email) with
  | some _ => db
  | none =>
    if db.users.any (fun u => u.id = uid ∨ u.clerk_user_id = clerk ∨ u.username = username)
    then db
    else { db with users := db.users ++ [⟨uid, clerk, email, username, 0⟩] }

/-- `create_contact` (contacts.py lines 77-): reject a duplicate
(user, phone) pair, otherwise insert an active contact. -/
def create_contact (db : DB) (uid phone name : String) : Except ApiError Contact × DB :=
  match findUser db uid with
  | none => (.error (.notFound "User not found"), db)
  | some _ =>
    if db.contacts.any (fun c => c.user_id = uid ∧ c.phone_number = phone) then
      (.error (.badRequest "Contact with this phone number already exists"), db)
    else
      let c : Contact := ⟨db.nextContactId, uid, phone, true⟩
      (.ok c, { db with contacts := db.contacts ++ [c]
                        nextContactId := db.nextContactId + 1 })

/-- `create_group` (contacts.py lines 209-): reject a duplicate
(user, name) pair, otherwise insert the group.  The unused `name` argument
of the contact above and this name are kept for fidelity of the uniqueness
checks. -/
def create_group (db : DB) (uid name : String) : Except ApiError ContactGroup × DB :=
  match findUser db uid with
  | none => (.error (.notFound "User not found"), db)
  | some _ =>
    if db.groups.any (fun g => g.user_id = uid ∧ g.name = name) then
      (.error (.badRequest "Group with this name already exists"), db)
    else
      let g : ContactGroup := ⟨db.nextGroupId, uid, name⟩
      (.ok g, { db with groups := db.groups ++ [g]
                        nextGroupId := db.nextGroupId + 1 })

/-- `add_contacts_to_group` (contacts.py lines 335-): the group must be
owned by the caller and every listed contact must exist and be owned by the
caller; each contact not already a member is appended to the association
table. -/
def add_contacts_to_group (db : DB) (uid : String) (groupId : Nat)
    (contactIds : List Nat) : Except ApiError Unit × DB :=
  match db.groups.find? (fun g => g.id = groupId ∧ g.user_id = uid) with
  | none => (.error (.notFound "Group not found or access denied"), db)
  | some _ =>
    if ¬ contactIds.all (fun cid =>
        db.contacts.any (fun c => c.id = cid ∧ c.user_id = uid)) then
      (.error (.badRequest "Some contact IDs are invalid"), db)
    else
      let newRows := (contactIds.filter (fun cid =>
        ¬ db.members.any (fun m => m.contact_id = cid ∧ m.group_id = groupId))).map
        (fun cid => (⟨cid, groupId⟩ : GroupMember))
      (.ok (), { db with members := db.members ++ newRows })

/-! ### Serialized event traces

The reachable states of the store: each event is one completed HTTP request
or one scan cycle, serialized.  An event whose operation reports an error
leaves the store unchanged (the session is discarded uncommitted). -/

inductive Event where
  | ensureUser (uid clerk email username : String)
  | topup (uid : String) (amount : Money)
  | createContact (uid phone name : String)
  | createGroup (uid name : String)
  | addContactsToGroup (uid : String) (groupId : Nat) (contactIds : List Nat)
  | sendSms (uid : String) (msg : String) (recipients : List String) (sender : Option String)
  | dispatchSms (ids : List Nat) (outcome : Nat → Option String)
  | scheduleSms (uid : String) (now : Int) (raw : ScheduleSMSRequest)
  | scheduleBulkSms (uid : String) (now : Int) (raw : BulkScheduleRequest)
  | updateSchedule (uid : String) (sid : Nat) (now : Int) (raw : ScheduleUpdateRequest)
  | cancelSchedule (uid : String) (sid : Nat)
  | scanDue (now : Int) (gw : Nat → Bool) (gwErr : Nat → String)
  | devSend (uid : String) (msg : String) (recipients : List String) (resp : GwResponse)

/-- Apply one event to the store. -/
def stepEvent (db : DB) : Event → DB
  | .ensureUser uid clerk email username => ensure_user db uid clerk email username
  | .topup uid amount => (topup_wallet_route db uid amount).2
  | .createContact uid phone name => (create_contact db uid phone name).2
  | .createGroup uid name => (create_group db uid name).2
  | .addContactsToGroup uid gid cids => (add_contacts_to_group db uid gid cids).2
  | .sendSms uid msg recipients sender => (send_sms db uid msg recipients sender).2
  | .dispatchSms ids outcome => process_sms_sending db ids outcome
  | .scheduleSms uid now raw => (schedule_sms_route db uid now raw).2
  | .scheduleBulkSms uid now raw => (schedule_bulk_sms_route db uid now raw).2
  | .updateSchedule uid sid now raw => (update_scheduled_message_route db sid uid now raw).2
  | .cancelSchedule uid sid => (cancel_scheduled_message db sid uid).2
  | .scanDue now gw gwErr => process_scheduled_messages db now gw gwErr
  | .devSend uid msg recipients resp => (client_send_sms db uid msg recipients resp).2

/-- The store after a serialized trace of events, from the empty store. -/
def run (es : List Event) : DB :=
  es.foldl stepEvent initDB

/-! ### Ledger and refund observables -/

/-- The signed sum of a user's ledger rows. -/
def txnSum (uid : String) (txns : List Transaction) : Money :=
  ((txns.filter (fun t => t.user_id = uid)).map Transaction.amount).sum

/-- The refund ledger rows issued for one schedule (by the ghost tag). -/
def refundsFor (sid : Nat) (txns : List Transaction) : List Transaction :=
  txns.filter (fun t => t.sched_ref = some sid)

/-- The row with a given schedule id, as the store would look it up. -/
def rowById (db : DB) (sid : Nat) : Option ScheduledMessage :=
  db.scheduled.find? (fun r => r.id = sid)

/-- The five states of `models.ScheduleStatus`. -/
def statusOK (s : ScheduledMessage) : Prop :=
  s.status = "pending" ∨ s.status = "processing" ∨ s.status = "sent" ∨
  s.status = "failed" ∨ s.status = "cancelled"

/-- The store invariant maintained by every serialized operation: the
wallet/ledger equation, referential integrity, key uniqueness and bounds,
and the per-schedule refund discipline. -/
structure Inv (db : DB) : Prop where
  ledger : ∀ u ∈ db.users, u.wallet_balance = txnSum u.id db.transactions
  txnFK : ∀ t ∈ db.transactions, ∃ u ∈ db.users, u.id = t.user_id
  schedFK : ∀ s ∈ db.scheduled, ∃ u ∈ db.users, u.id = s.user_id
  userNodup : (db.users.map User.id).Nodup
  schedNodup : (db.scheduled.map ScheduledMessage.id).Nodup
  schedLt : ∀ s ∈ db.scheduled, s.id < db.nextScheduleId
  refValid : ∀ t ∈ db.transactions, ∀ sid, t.sched_ref = some sid → sid < db.nextScheduleId
  noRefund : ∀ s ∈ db.scheduled,
    (s.status = "pending" ∨ s.status = "processing" ∨ s.status = "sent") →
    refundsFor s.id db.transactions = []
  oneRefund : ∀ s ∈ db.scheduled, (s.status = "failed" ∨ s.status = "cancelled") →
    refundsFor s.id db.transactions = [⟨s.user_id, s.cost, "sms_refund", some s.id⟩]
  statusWF : ∀ s ∈ db.scheduled, statusOK s

/-- A snapshot suitable for the scan loop: distinct row ids, every row
present in the store and pending. -/
def SnapOK (db : DB) (snap : List ScheduledMessage) : Prop :=
  (snap.map ScheduledMessage.id).Nodup ∧
  ∀ s ∈ snap, s ∈ db.scheduled ∧ s.status = "pending"

/-- The gateway outcomes `client_send_sms` treats as failures: an
exception, a falsy/keyless response, or no recipient reporting Success. -/
def gwFailed : GwResponse → Prop
  | .exn _ => True
  | .missingData => True
  | .data rs => rs = [] ∨ ∀ r ∈ rs, r.2 ≠ "Success"

/-- What one scan iteration turns a claimed row into, given the gateway
outcome (`mid` is the id of the Message created on success). -/
def scanResultRow (now : Int) (gw : Nat → Bool) (gwErr : Nat → String)
    (mid : Nat) (s : ScheduledMessage) : ScheduledMessage :=
  if gw s.id then sentRow now mid (claimedRow now s)
  else failedRow (gwErr s.id) (claimedRow now s)

/-! ### Concrete data used by witnesses and counterexamples -/

/-- A trace: create a user, top up 100, schedule one SMS, cancel it. -/
def wTraceCancel : List Event :=
  [ .ensureUser "u1" "clerk1" "a@b.co" "alice",
    .topup "u1" 100,
    .scheduleSms "u1" 0 ⟨"hello", "+256700000001", .aware 600, none⟩,
    .cancelSchedule "u1" 1 ]

/-- The cancelled row that `wTraceCancel` leaves in the store. -/
def wCancelledRow : ScheduledMessage :=
  ⟨1, "u1", "+256700000001", "hello", none, 600, "cancelled", 32, 0, none, none, none, none⟩

/-- A trace: create a user and top up 50. -/
def wTraceTopup : List Event :=
  [ .ensureUser "u2" "clerk2" "b@b.co" "bob", .topup "u2" 50 ]

/-- A one-user store with balance 10, used for the insufficient-funds
witness. -/
def wDbPoor : DB :=
  { initDB with users := [⟨"u1", "clerk1", "a@b.co", "alice", 10⟩] }

/-- A one-user store with balance 100 and two due pending schedules whose
scheduled times are out of ascending order relative to the row order. -/
def wDbTwoDue : DB :=
  { initDB with
    users := [⟨"u1", "clerk1", "a@b.co", "alice", 100⟩]
    scheduled :=
      [ ⟨1, "u1", "+256700000001", "late", none, 200, "pending", 32, 0, none, none, none, none⟩,
        ⟨2, "u1", "+256700000002", "early", none, 100, "pending", 32, 0, none, none, none, none⟩ ]
    nextScheduleId := 3 }

/-- A one-user store with one due pending schedule. -/
def wDbOneDue : DB :=
  { initDB with
    users := [⟨"u1", "clerk1", "a@b.co", "alice", 100⟩]
    scheduled :=
      [ ⟨1, "u1", "+256700000001", "hi", none, 100, "pending", 32, 0, none, none, none, none⟩ ]
    nextScheduleId := 2 }

/-- The due pending row of `wDbOneDue`. -/
def wRowOneDue : ScheduledMessage :=
  ⟨1, "u1", "+256700000001", "hi", none, 100, "pending", 32, 0, none, none, none, none⟩

/-- A gateway that always succeeds. -/
def gwAllOk : Nat → Bool := fun _ => true

/-- A gateway where only the schedule with id 2 succeeds. -/
def gwOnly2 : Nat → Bool := fun sid => sid = 2

/-- A constant gateway error text. -/
def gwErrC : Nat → String := fun _ => "boom"

/-- A store with one user owning two groups that share a contact: contact 1
is a member of groups 1 and 2, contact 2 only of group 2. -/
def wDbGroups : DB :=
  { initDB with
    users := [⟨"u1", "clerk1", "a@b.co", "alice", 100⟩]
    contacts :=
      [ ⟨1, "u1", "+256700000001", true⟩, ⟨2, "u1", "+256700000002", true⟩ ]
    groups := [ ⟨1, "u1", "g1"⟩, ⟨2, "u1", "g2"⟩ ]
    members := [ ⟨1, 1⟩, ⟨1, 2⟩, ⟨2, 2⟩ ]
    nextContactId := 3, nextGroupId := 3 }

/-- A one-user store used for the developer-API witness. -/
def wDbDev : DB :=
  { initDB with users := [⟨"u1", "clerk1", "a@b.co", "alice", 100⟩] }

/-! ## Projection lemmas for the store helpers -/

@[simp] theorem updateUserBalance_users (db : DB) (uid : String) (δ : Money) :
    (updateUserBalance db uid δ).users = db.users.map (fun u =>
      if u.id = uid then { u with wallet_balance := u.wallet_balance + δ } else u) := rfl

@[simp] theorem updateUserBalance_transactions (db : DB) (uid : String) (δ : Money) :
    (updateUserBalance db uid δ).transactions = db.transactions := rfl

@[simp] theorem updateUserBalance_scheduled (db : DB) (uid : String) (δ : Money) :
    (updateUserBalance db uid δ).scheduled = db.scheduled := rfl

@[simp] theorem updateUserBalance_messages (db : DB) (uid : String) (δ : Money) :
    (updateUserBalance db uid δ).messages = db.messages := rfl

@[simp] theorem updateUserBalance_nextScheduleId (db : DB) (uid : String) (δ : Money) :
    (updateUserBalance db uid δ).nextScheduleId = db.nextScheduleId := rfl

@[simp] theorem updateUserBalance_nextMessageId (db : DB) (uid : String) (δ : Money) :
    (updateUserBalance db uid δ).nextMessageId = db.nextMessageId := rfl

@[simp] theorem appendTxn_users (db : DB) (t : Transaction) :
    (appendTxn db t).users = db.users := rfl

@[simp] theorem appendTxn_transactions (db : DB) (t : Transaction) :
    (appendTxn db t).transactions = db.transactions ++ [t] := rfl

@[simp] theorem appendTxn_scheduled (db : DB) (t : Transaction) :
    (appendTxn db t).scheduled = db.scheduled := rfl

@[simp] theorem appendTxn_messages (db : DB) (t : Transaction) :
    (appendTxn db t).messages = db.messages := rfl

@[simp] theorem appendTxn_nextScheduleId (db : DB) (t : Transaction) :
    (appendTxn db t).nextScheduleId = db.nextScheduleId := rfl

@[simp] theorem appendTxn_nextMessageId (db : DB) (t : Transaction) :
    (appendTxn db t).nextMessageId = db.nextMessageId := rfl

@[simp] theorem updateScheduleRow_users (db : DB) (sid : Nat) (f : ScheduledMessage → ScheduledMessage) :
    (updateScheduleRow db sid f).users = db.users := rfl

@[simp] theorem updateScheduleRow_transactions (db : DB) (sid : Nat) (f : ScheduledMessage → ScheduledMessage) :
    (updateScheduleRow db sid f).transactions = db.transactions := rfl

@[simp] theorem updateScheduleRow_scheduled (db : DB) (sid : Nat) (f : ScheduledMessage → ScheduledMessage) :
    (updateScheduleRow db sid f).scheduled =
      db.scheduled.map (fun s => if s.id = sid then f s else s) := rfl

@[simp] theorem updateScheduleRow_messages (db : DB) (sid : Nat) (f : ScheduledMessage → ScheduledMessage) :
    (updateScheduleRow db sid f).messages = db.messages := rfl

@[simp] theorem updateScheduleRow_nextScheduleId (db : DB) (sid : Nat) (f : ScheduledMessage → ScheduledMessage) :
    (updateScheduleRow db sid f).nextScheduleId = db.nextScheduleId := rfl

@[simp] theorem updateScheduleRow_nextMessageId (db : DB) (sid : Nat) (f : ScheduledMessage → ScheduledMessage) :
    (updateScheduleRow db sid f).nextMessageId = db.nextMessageId := rfl

/-! ## Ledger helper lemmas -/

theorem txnSum_append (uid : String) (txns : List Transaction) (t : Transaction) :
    txnSum uid (txns ++ [t]) =
      txnSum uid txns + (if t.user_id = uid then t.amount else 0) := by
  by_cases h : t.user_id = uid <;> simp [txnSum, List.filter_append, h]

theorem txnSum_eq_zero (uid : String) (txns : List Transaction)
    (h : ∀ t ∈ txns, t.user_id ≠ uid) : txnSum uid txns = 0 := by
  have : txns.filter (fun t => t.user_id = uid) = [] := by
    simp only [List.filter_eq_nil_iff]
    intro t ht
    simpa using h t ht
  simp [txnSum, this]

theorem refundsFor_append (sid : Nat) (txns : List Transaction) (t : Transaction) :
    refundsFor sid (txns ++ [t]) =
      refundsFor sid txns ++ (if t.sched_ref = some sid then [t] else []) := by
  by_cases h : t.sched_ref = some sid <;> simp [refundsFor, List.filter_append, h]

theorem id_of_balanceUpdate (uid : String) (δ : Money) (u : User) :
    (if u.id = uid then { u with wallet_balance := u.wallet_balance + δ } else u).id = u.id := by
  split <;> rfl

theorem map_balanceUpdate_ids (l : List User) (uid : String) (δ : Money) :
    (l.map (fun u =>
      if u.id = uid then { u with wallet_balance := u.wallet_balance + δ } else u)).map User.id
      = l.map User.id := by
  rw [List.map_map]
  exact List.map_congr_left (fun u _ => id_of_balanceUpdate uid δ u)

theorem exists_id_balanceUpdate (l : List User) (uid x : String) (δ : Money)
    (h : ∃ u ∈ l, u.id = x) :
    ∃ u ∈ l.map (fun u =>
      if u.id = uid then { u with wallet_balance := u.wallet_balance + δ } else u), u.id = x := by
  obtain ⟨u, hu, hx⟩ := h
  exact ⟨_, List.mem_map_of_mem _ hu, by rw [id_of_balanceUpdate]; exact hx⟩

theorem ledger_charge (db : DB) (uid : String) (δ : Money) (ty : String) (ref : Option Nat)
    (h : ∀ u ∈ db.users, u.wallet_balance = txnSum u.id db.transactions) :
    ∀ u ∈ (appendTxn (updateUserBalance db uid δ) ⟨uid, δ, ty, ref⟩).users,
      u.wallet_balance =
        txnSum u.id (appendTxn (updateUserBalance db uid δ) ⟨uid, δ, ty, ref⟩).transactions := by
  intro u hu
  simp only [appendTxn_users, updateUserBalance_users, appendTxn_transactions,
    updateUserBalance_transactions, List.mem_map] at hu ⊢
  obtain ⟨u0, hu0, rfl⟩ := hu
  rw [txnSum_append]
  by_cases hid : u0.id = uid
  · simp [hid, h u0 hu0]
  · simp [hid, Ne.symm hid, h u0 hu0]

/-! ## Lookup helper lemmas -/

theorem findUser_eq_some (db : DB) (uid : String) (u : User)
    (h : findUser db uid = some u) : u ∈ db.users ∧ u.id = uid := by
  refine ⟨List.mem_of_find?_eq_some h, ?_⟩
  have := List.find?_some h
  simpa using this

theorem findUser_isSome (db : DB) (uid : String)
    (h : ∃ u ∈ db.users, u.id = uid) : ∃ u, findUser db uid = some u := by
  have hs : (db.users.find? (fun u => u.id = uid)).isSome := by
    rw [List.find?_isSome]
    obtain ⟨u, hu, hx⟩ := h
    exact ⟨u, hu, by simpa using hx⟩
  exact Option.isSome_iff_exists.mp hs

theorem findSchedule_eq_some (db : DB) (sid : Nat) (uid : String) (s : ScheduledMessage)
    (h : findSchedule db sid uid = some s) :
    s ∈ db.scheduled ∧ s.id = sid ∧ s.user_id = uid := by
  refine ⟨List.mem_of_find?_eq_some h, ?_⟩
  have := List.find?_some h
  simpa using this

/-! ## Invariant preservation -/

theorem inv_initDB : Inv initDB := by
  refine ⟨?_, ?_, ?_, ?_, ?_, ?_, ?_, ?_, ?_, ?_⟩ <;> simp [initDB]

theorem inv_copy (db : DB) (h : Inv db) (db' : DB)
    (hu : db'.users = db.users) (ht : db'.transactions = db.transactions)
    (hs : db'.scheduled = db.scheduled) (hn : db'.nextScheduleId = db.nextScheduleId) :
    Inv db' := by
  refine ⟨?_, ?_, ?_, ?_, ?_, ?_, ?_, ?_, ?_, ?_⟩ <;> simp only [hu, ht, hs, hn]
  · exact h.ledger
  · exact h.txnFK
  · exact h.schedFK
  · exact h.userNodup
  · exact h.schedNodup
  · exact h.schedLt
  · exact h.refValid
  · exact h.noRefund
  · exact h.oneRefund
  · exact h.statusWF

theorem users_ensure_cases (db : DB) (uid clerk email username : String) :
    ensure_user db uid clerk email username = db ∨
      ((∀ u ∈ db.users, u.id ≠ uid) ∧
       ensure_user db uid clerk email username =
         { db with users := db.users ++ [⟨uid, clerk, email, username, 0⟩] }) := by
  unfold ensure_user
  cases hf : db.users.find? (fun u => u.email = email) with
  | some u => left; rfl
  | none =>
    by_cases hg : (db.users.any fun u =>
        decide (u.id = uid ∨ u.clerk_user_id = clerk ∨ u.username = username)) = true
    · left; rw [if_pos hg]
    · right
      refine ⟨?_, by rw [if_neg hg]⟩
      intro u hu hc
      apply hg
      simp only [List.any_eq_true]
      exact ⟨u, hu, by simp [hc]⟩

theorem inv_ensure_user (db : DB) (uid clerk email username : String) (h : Inv db) :
    Inv (ensure_user db uid clerk email username) := by
  rcases users_ensure_cases db uid clerk email username with heq | ⟨hfresh, heq⟩
  · rw [heq]; exact h
  · rw [heq]
    refine ⟨?_, ?_, ?_, ?_, ?_, ?_, ?_, ?_, ?_, ?_⟩
    · intro u hu
      simp only [List.mem_append, List.mem_singleton] at hu
      rcases hu with hu | rfl
      · exact h.ledger u hu
      · show (0 : Money) = txnSum uid db.transactions
        refine (txnSum_eq_zero uid db.transactions ?_).symm
        intro t ht
        obtain ⟨u', hu', hid⟩ := h.txnFK t ht
        exact fun hequ => hfresh u' hu' (hid.trans hequ)
    · intro t ht
      obtain ⟨u', hu', hid⟩ := h.txnFK t ht
      exact ⟨u', List.mem_append_left _ hu', hid⟩
    · intro s hs
      obtain ⟨u', hu', hid⟩ := h.schedFK s hs
      exact ⟨u', List.mem_append_left _ hu', hid⟩
    · show ((db.users ++ [_]).map User.id).Nodup
      rw [List.map_append]
      refine List.Nodup.append h.userNodup (by simp) ?_
      intro x hx hx'
      simp only [List.mem_map] at hx
      simp only [List.map_cons, List.map_nil, List.mem_singleton] at hx'
      obtain ⟨u', hu', rfl⟩ := hx
      exact hfresh u' hu' hx'
    · exact h.schedNodup
    · exact h.schedLt
    · exact h.refValid
    · exact h.noRefund
    · exact h.oneRefund
    · exact h.statusWF

theorem inv_charge_none (db : DB) (uid : String) (δ : Money) (ty : String)
    (hmem : ∃ u ∈ db.users, u.id = uid) (h : Inv db) :
    Inv (appendTxn (updateUserBalance db uid δ) ⟨uid, δ, ty, none⟩) := by
  refine ⟨ledger_charge db uid δ ty none h.ledger, ?_, ?_, ?_, ?_, ?_, ?_, ?_, ?_, ?_⟩
  · intro t ht
    rcases List.mem_append.mp ht with ht' | ht'
    · exact exists_id_balanceUpdate _ uid _ δ (h.txnFK t ht')
    · simp only [List.mem_singleton] at ht'
      subst ht'
      exact exists_id_balanceUpdate _ uid _ δ hmem
  · intro s hs
    exact exists_id_balanceUpdate _ uid _ δ (h.schedFK s hs)
  · show ((db.users.map _).map User.id).Nodup
    rw [map_balanceUpdate_ids]
    exact h.userNodup
  · exact h.schedNodup
  · exact h.schedLt
  · intro t ht sid href
    rcases List.mem_append.mp ht with ht' | ht'
    · exact h.refValid t ht' sid href
    · simp only [List.mem_singleton] at ht'
      subst ht'
      simp at href
  · intro s hs hst
    show refundsFor s.id (db.transactions ++ [_]) = []
    rw [refundsFor_append]
    simpa using h.noRefund s hs hst
  · intro s hs hst
    show refundsFor s.id (db.transactions ++ [_]) = _
    rw [refundsFor_append]
    simpa using h.oneRefund s hs hst
  · exact h.statusWF

theorem inv_topup_route (db : DB) (uid : String) (a : Money) (h : Inv db) :
    Inv (topup_wallet_route db uid a).2 := by
  unfold topup_wallet_route
  cases validate_topup_amount a with
  | error e => exact h
  | ok a' =>
    unfold topup_wallet
    cases hf : findUser db uid with
    | none => exact h
    | some u =>
      exact inv_charge_none db uid a' "topup"
        ⟨u, (findUser_eq_some db uid u hf).1, (findUser_eq_some db uid u hf).2⟩ h

theorem inv_send_sms (db : DB) (uid msg : String) (recipients : List String)
    (sender : Option String) (h : Inv db) :
    Inv (send_sms db uid msg recipients sender).2 := by
  unfold send_sms
  cases hf : findUser db uid with
  | none => exact h
  | some user =>
    simp only []
    split
    · exact h
    · exact inv_copy _ (inv_charge_none db uid (-((recipients.length : Money) * 32)) "sms_send"
          ⟨user, (findUser_eq_some db uid user hf).1, (findUser_eq_some db uid user hf).2⟩ h)
          _ rfl rfl rfl rfl

theorem inv_dispatch (db : DB) (ids : List Nat) (outcome : Nat → Option String) (h : Inv db) :
    Inv (process_sms_sending db ids outcome) :=
  inv_copy _ h _ rfl rfl rfl rfl

theorem inv_create_contact (db : DB) (uid phone name : String) (h : Inv db) :
    Inv (create_contact db uid phone name).2 := by
  unfold create_contact
  cases hf : findUser db uid with
  | none => exact h
  | some u =>
    simp only []
    split
    · exact h
    · exact inv_copy _ h _ rfl rfl rfl rfl

theorem inv_create_group (db : DB) (uid name : String) (h : Inv db) :
    Inv (create_group db uid name).2 := by
  unfold create_group
  cases hf : findUser db uid with
  | none => exact h
  | some u =>
    simp only []
    split
    · exact h
    · exact inv_copy _ h _ rfl rfl rfl rfl

theorem inv_add_contacts (db : DB) (uid : String) (gid : Nat) (cids : List Nat) (h : Inv db) :
    Inv (add_contacts_to_group db uid gid cids).2 := by
  unfold add_contacts_to_group
  cases hf : db.groups.find? (fun g => g.id = gid ∧ g.user_id = uid) with
  | none => exact h
  | some g =>
    simp only []
    split
    · exact h
    · exact inv_copy _ h _ rfl rfl rfl rfl

theorem inv_client_send (db : DB) (uid msg : String) (recipients : List String)
    (resp : GwResponse) (h : Inv db) :
    Inv (client_send_sms db uid msg recipients resp).2 := by
  unfold client_send_sms
  cases hf : findUser db uid with
  | none => exact h
  | some user =>
    have hmem : ∃ u ∈ db.users, u.id = uid :=
      ⟨user, (findUser_eq_some db uid user hf).1, (findUser_eq_some db uid user hf).2⟩
    simp only []
    split
    · exact h
    · cases resp with
      | exn e => exact h
      | missingData => exact h
      | data rs =>
        simp only []
        split
        · exact h
        · exact inv_copy _ (inv_charge_none db uid (-((recipients.length : Money) * 32)) "sms_deduction" hmem h)
            _ rfl rfl rfl rfl

theorem refundsFor_fresh (txns : List Transaction) (n : Nat)
    (h : ∀ t ∈ txns, ∀ sid, t.sched_ref = some sid → sid < n) :
    refundsFor n txns = [] := by
  simp only [refundsFor, List.filter_eq_nil_iff, decide_eq_true_eq]
  intro t ht hc
  exact absurd (h t ht n hc) (lt_irrefl n)

theorem inv_schedule_sms (db : DB) (uid : String) (req : ValidScheduleRequest) (h : Inv db) :
    Inv (schedule_sms db uid req).2 := by
  unfold schedule_sms
  cases hf : findUser db uid with
  | none => exact h
  | some user =>
    simp only []
    split
    · exact h
    · have hmem : ∃ u ∈ db.users, u.id = uid :=
        ⟨user, (findUser_eq_some db uid user hf).1, (findUser_eq_some db uid user hf).2⟩
      have hch := inv_charge_none db uid (-(32 : Money)) "sms_scheduled" hmem h
      refine ⟨hch.ledger, hch.txnFK, ?_, hch.userNodup, ?_, ?_, ?_, ?_, ?_, ?_⟩
      · intro s' hs'
        rcases List.mem_append.mp hs' with hs'' | hs''
        · exact exists_id_balanceUpdate _ uid _ _ (h.schedFK s' hs'')
        · simp only [List.mem_singleton] at hs''
          subst hs''
          exact exists_id_balanceUpdate _ uid _ _ hmem
      · show ((db.scheduled ++ [_]).map ScheduledMessage.id).Nodup
        rw [List.map_append]
        refine List.Nodup.append h.schedNodup (by simp) ?_
        intro x hx hx'
        simp only [List.mem_map] at hx
        simp only [List.map_cons, List.map_nil, List.mem_singleton] at hx'
        obtain ⟨s', hs', rfl⟩ := hx
        have := h.schedLt s' hs'
        omega
      · intro s' hs'
        rcases List.mem_append.mp hs' with hs'' | hs''
        · have := h.schedLt s' hs''
          show s'.id < db.nextScheduleId + 1
          omega
        · simp only [List.mem_singleton] at hs''
          subst hs''
          show db.nextScheduleId < db.nextScheduleId + 1
          omega
      · intro t ht sid href
        rcases List.mem_append.mp ht with ht' | ht'
        · have := h.refValid t ht' sid href
          show sid < db.nextScheduleId + 1
          omega
        · simp only [List.mem_singleton] at ht'
          subst ht'
          simp at href
      · intro s' hs' hst
        rcases List.mem_append.mp hs' with hs'' | hs''
        · show refundsFor s'.id (db.transactions ++ [_]) = []
          rw [refundsFor_append]
          simpa using h.noRefund s' hs'' hst
        · simp only [List.mem_singleton] at hs''
          subst hs''
          show refundsFor db.nextScheduleId (db.transactions ++ [_]) = []
          rw [refundsFor_append]
          have : refundsFor db.nextScheduleId db.transactions = [] :=
            refundsFor_fresh db.transactions db.nextScheduleId h.refValid
          simp [this]
      · intro s' hs' hst
        rcases List.mem_append.mp hs' with hs'' | hs''
        · show refundsFor s'.id (db.transactions ++ [_]) = _
          rw [refundsFor_append]
          simpa using h.oneRefund s' hs'' hst
        · simp only [List.mem_singleton] at hs''
          subst hs''
          rcases hst with hst | hst
          · exact absurd hst (show ¬ ("pending" : String) = "failed" by decide)
          · exact absurd hst (show ¬ ("pending" : String) = "cancelled" by decide)
      · intro s' hs'
        rcases List.mem_append.mp hs' with hs'' | hs''
        · exact h.statusWF s' hs''
        · simp only [List.mem_singleton] at hs''
          subst hs''
          exact Or.inl rfl

theorem inv_schedule_route (db : DB) (uid : String) (now : Int)
    (raw : ScheduleSMSRequest) (h : Inv db) :
    Inv (schedule_sms_route db uid now raw).2 := by
  unfold schedule_sms_route
  cases raw.validate now with
  | error e => exact h
  | ok req => exact inv_schedule_sms db uid req h

theorem map_schedUpdate_ids (l : List ScheduledMessage) (sid : Nat)
    (f : ScheduledMessage → ScheduledMessage) (hf : ∀ r, r.id = sid → (f r).id = r.id) :
    (l.map (fun r => if r.id = sid then f r else r)).map ScheduledMessage.id
      = l.map ScheduledMessage.id := by
  rw [List.map_map]
  refine List.map_congr_left (fun r _ => ?_)
  by_cases hc : r.id = sid
  · simp [hc, hf r hc]
  · simp [hc]

theorem applyUpdate_id (req : ValidUpdateRequest) (s : ScheduledMessage) :
    (applyUpdate req s).id = s.id := by
  obtain ⟨om, ot, os⟩ := req
  unfold applyUpdate
  rcases om with _ | m <;> rcases ot with _ | t <;> rcases os with _ | sd <;>
    try rfl
  all_goals by_cases hm : m = "" <;> simp [hm]

theorem applyUpdate_status (req : ValidUpdateRequest) (s : ScheduledMessage) :
    (applyUpdate req s).status = s.status := by
  obtain ⟨om, ot, os⟩ := req
  unfold applyUpdate
  rcases om with _ | m <;> rcases ot with _ | t <;> rcases os with _ | sd <;>
    try rfl
  all_goals by_cases hm : m = "" <;> simp [hm]

theorem applyUpdate_cost (req : ValidUpdateRequest) (s : ScheduledMessage) :
    (applyUpdate req s).cost = s.cost := by
  obtain ⟨om, ot, os⟩ := req
  unfold applyUpdate
  rcases om with _ | m <;> rcases ot with _ | t <;> rcases os with _ | sd <;>
    try rfl
  all_goals by_cases hm : m = "" <;> simp [hm]

theorem applyUpdate_user (req : ValidUpdateRequest) (s : ScheduledMessage) :
    (applyUpdate req s).user_id = s.user_id := by
  obtain ⟨om, ot, os⟩ := req
  unfold applyUpdate
  rcases om with _ | m <;> rcases ot with _ | t <;> rcases os with _ | sd <;>
    try rfl
  all_goals by_cases hm : m = "" <;> simp [hm]

theorem inv_replaceRow (db : DB) (sid : Nat) (s s3 : ScheduledMessage) (h : Inv db)
    (hsmem : s ∈ db.scheduled) (hsid : s.id = sid) (hpend : s.status = "pending")
    (h3id : s3.id = sid) (h3st : s3.status = "pending")
    (h3uid : s3.user_id = s.user_id) :
    Inv (updateScheduleRow db sid (fun _ => s3)) := by
  refine ⟨h.ledger, h.txnFK, ?_, h.userNodup, ?_, ?_, h.refValid, ?_, ?_, ?_⟩
  · intro r' hr'
    simp only [updateScheduleRow_scheduled, List.mem_map] at hr'
    obtain ⟨r, hr, rfl⟩ := hr'
    by_cases hc : r.id = sid
    · simp only [hc, if_pos rfl]
      show ∃ u' ∈ db.users, u'.id = s3.user_id
      rw [h3uid]
      exact h.schedFK s hsmem
    · simp only [if_neg hc]
      exact h.schedFK r hr
  · show ((db.scheduled.map _).map ScheduledMessage.id).Nodup
    rw [map_schedUpdate_ids db.scheduled sid _ (fun r hr => by simp [h3id, hr])]
    exact h.schedNodup
  · intro r' hr'
    simp only [updateScheduleRow_scheduled, List.mem_map,
      updateScheduleRow_nextScheduleId] at hr' ⊢
    obtain ⟨r, hr, rfl⟩ := hr'
    by_cases hc : r.id = sid
    · simp only [hc, if_pos rfl]
      show s3.id < db.nextScheduleId
      rw [h3id, ← hsid]
      exact h.schedLt s hsmem
    · simp only [if_neg hc]
      exact h.schedLt r hr
  · intro r' hr' hst
    simp only [updateScheduleRow_scheduled, List.mem_map] at hr'
    obtain ⟨r, hr, rfl⟩ := hr'
    by_cases hc : r.id = sid
    · simp only [hc, if_pos rfl] at hst ⊢
      show refundsFor s3.id db.transactions = []
      rw [h3id, ← hsid]
      exact h.noRefund s hsmem (Or.inl hpend)
    · simp only [if_neg hc] at hst ⊢
      exact h.noRefund r hr hst
  · intro r' hr' hst
    simp only [updateScheduleRow_scheduled, List.mem_map] at hr'
    obtain ⟨r, hr, rfl⟩ := hr'
    by_cases hc : r.id = sid
    · simp only [hc, if_pos rfl] at hst
      have hst' : s3.status = "failed" ∨ s3.status = "cancelled" := hst
      rw [h3st] at hst'
      rcases hst' with hst' | hst'
      · exact absurd hst' (by decide)
      · exact absurd hst' (by decide)
    · simp only [if_neg hc] at hst ⊢
      exact h.oneRefund r hr hst
  · intro r' hr'
    simp only [updateScheduleRow_scheduled, List.mem_map] at hr'
    obtain ⟨r, hr, rfl⟩ := hr'
    by_cases hc : r.id = sid
    · simp only [hc, if_pos rfl]
      exact Or.inl h3st
    · simp only [if_neg hc]
      exact h.statusWF r hr

theorem inv_update_sched (db : DB) (sid : Nat) (uid : String)
    (req : ValidUpdateRequest) (h : Inv db) :
    Inv (update_scheduled_message db sid uid req).2 := by
  unfold update_scheduled_message
  cases hfs : findSchedule db sid uid with
  | none => exact h
  | some s =>
    simp only []
    split
    · exact h
    · rename_i hpend'
      have hpend : s.status = "pending" := not_not.mp hpend'
      obtain ⟨hsmem, hsid, hsuid⟩ := findSchedule_eq_some db sid uid s hfs
      exact inv_replaceRow db sid s (applyUpdate req s) h hsmem hsid hpend
        ((applyUpdate_id req s).trans hsid)
        ((applyUpdate_status req s).trans hpend)
        (applyUpdate_user req s)

theorem inv_update_route (db : DB) (sid : Nat) (uid : String) (now : Int)
    (raw : ScheduleUpdateRequest) (h : Inv db) :
    Inv (update_scheduled_message_route db sid uid now raw).2 := by
  unfold update_scheduled_message_route
  cases raw.validate now with
  | error e => exact h
  | ok req => exact inv_update_sched db sid uid req h

theorem inv_cancel (db : DB) (sid : Nat) (uid : String) (h : Inv db) :
    Inv (cancel_scheduled_message db sid uid).2 := by
  unfold cancel_scheduled_message
  cases hfs : findSchedule db sid uid with
  | none => exact h
  | some s =>
    simp only []
    split
    · exact h
    · rename_i hpend'
      have hpend : s.status = "pending" := not_not.mp hpend'
      obtain ⟨hsmem, hsid, hsuid⟩ := findSchedule_eq_some db sid uid s hfs
      cases hfu : findUser db uid with
      | none => exact h
      | some u =>
        simp only []
        have hmem : ∃ u' ∈ db.users, u'.id = uid :=
          ⟨u, (findUser_eq_some db uid u hfu).1, (findUser_eq_some db uid u hfu).2⟩
        have hch := inv_charge_none db uid s.cost "sms_refund" hmem h
        refine ⟨ledger_charge db uid s.cost "sms_refund" (some s.id) h.ledger,
          ?_, ?_, ?_, ?_, ?_, ?_, ?_, ?_, ?_⟩
        · intro t ht
          rcases List.mem_append.mp ht with ht' | ht'
          · exact exists_id_balanceUpdate _ uid _ _ (h.txnFK t ht')
          · simp only [List.mem_singleton] at ht'
            subst ht'
            exact exists_id_balanceUpdate _ uid _ _ hmem
        · intro r' hr'
          simp only [updateScheduleRow_scheduled, appendTxn_scheduled,
            updateUserBalance_scheduled, List.mem_map] at hr'
          obtain ⟨r, hr, rfl⟩ := hr'
          by_cases hc : r.id = sid
          · simp only [hc, if_pos rfl]
            show ∃ u' ∈ _, u'.id = r.user_id
            exact exists_id_balanceUpdate _ uid _ _ (h.schedFK r hr)
          · simp only [if_neg hc]
            exact exists_id_balanceUpdate _ uid _ _ (h.schedFK r hr)
        · show ((db.users.map _).map User.id).Nodup
          rw [map_balanceUpdate_ids]
          exact h.userNodup
        · show ((db.scheduled.map _).map ScheduledMessage.id).Nodup
          rw [map_schedUpdate_ids db.scheduled sid
            (fun r => { r with status := "cancelled" }) (fun r _ => rfl)]
          exact h.schedNodup
        · intro r' hr'
          simp only [updateScheduleRow_scheduled, appendTxn_scheduled,
            updateUserBalance_scheduled, List.mem_map] at hr'
          obtain ⟨r, hr, rfl⟩ := hr'
          by_cases hc : r.id = sid
          · rw [if_pos hc]
            exact h.schedLt r hr
          · rw [if_neg hc]
            exact h.schedLt r hr
        · intro t ht sid' href
          rcases List.mem_append.mp ht with ht' | ht'
          · exact h.refValid t ht' sid' href
          · simp only [List.mem_singleton] at ht'
            subst ht'
            simp only [Option.some_inj] at href
            subst href
            exact h.schedLt s hsmem
        · intro r' hr' hst
          simp only [updateScheduleRow_scheduled, appendTxn_scheduled,
            updateUserBalance_scheduled, List.mem_map] at hr'
          obtain ⟨r, hr, rfl⟩ := hr'
          by_cases hc : r.id = sid
          · rw [if_pos hc] at hst
            have hst' : "cancelled" = "pending" ∨ "cancelled" = "processing" ∨
                "cancelled" = "sent" := hst
            rcases hst' with hx | hx | hx <;> exact absurd hx (by decide)
          · rw [if_neg hc] at hst
            rw [if_neg hc]
            show refundsFor r.id (db.transactions ++ [_]) = []
            rw [refundsFor_append]
            have hne : ¬ ((some s.id : Option Nat) = some r.id) := by
              simp only [Option.some_inj]
              rw [hsid]
              exact fun hx => hc hx.symm
            simp only [hne, if_neg]
            simpa using h.noRefund r hr hst
        · intro r' hr' hst
          simp only [updateScheduleRow_scheduled, appendTxn_scheduled,
            updateUserBalance_scheduled, List.mem_map] at hr'
          obtain ⟨r, hr, rfl⟩ := hr'
          by_cases hc : r.id = sid
          · rw [if_pos hc] at hst ⊢
            have hrs : r = s := by
              refine List.inj_on_of_nodup_map h.schedNodup hr hsmem ?_
              rw [hc, hsid]
            subst hrs
            show refundsFor r.id (db.transactions ++
              [⟨uid, r.cost, "sms_refund", some r.id⟩]) = _
            rw [refundsFor_append]
            rw [h.noRefund r hr (Or.inl hpend)]
            simp [hsuid]
          · rw [if_neg hc] at hst ⊢
            show refundsFor r.id (db.transactions ++ [_]) = _
            rw [refundsFor_append]
            have hne : ¬ ((some s.id : Option Nat) = some r.id) := by
              simp only [Option.some_inj]
              rw [hsid]
              exact fun hx => hc hx.symm
            simp only [hne, if_neg]
            simpa using h.oneRefund r hr hst
        · intro r' hr'
          simp only [updateScheduleRow_scheduled, appendTxn_scheduled,
            updateUserBalance_scheduled, List.mem_map] at hr'
          obtain ⟨r, hr, rfl⟩ := hr'
          by_cases hc : r.id = sid
          · rw [if_pos hc]
            show statusOK _
            right; right; right; right; rfl
          · rw [if_neg hc]
            exact h.statusWF r hr

theorem mkBulkSchedules_mem (uid msg : String) (sender : Option String) (t : Int)
    (n : Nat) (cs : List Contact) :
    ∀ r ∈ mkBulkSchedules uid msg sender t n cs,
      n ≤ r.id ∧ r.id < n + cs.length ∧ r.status = "pending" ∧
      r.user_id = uid ∧ r.cost = 32 := by
  induction cs generalizing n with
  | nil => intro r hr; simp [mkBulkSchedules] at hr
  | cons c rest ih =>
    intro r hr
    simp only [mkBulkSchedules, List.mem_cons] at hr
    rcases hr with rfl | hr
    · refine ⟨le_refl _, ?_, rfl, rfl, rfl⟩
      simp only [List.length_cons]
      omega
    · obtain ⟨h1, h2, h3, h4, h5⟩ := ih (n + 1) r hr
      refine ⟨by omega, ?_, h3, h4, h5⟩
      simp only [List.length_cons]
      omega

theorem mkBulkSchedules_nodup (uid msg : String) (sender : Option String) (t : Int)
    (n : Nat) (cs : List Contact) :
    ((mkBulkSchedules uid msg sender t n cs).map ScheduledMessage.id).Nodup := by
  induction cs generalizing n with
  | nil => simp [mkBulkSchedules]
  | cons c rest ih =>
    simp only [mkBulkSchedules, List.map_cons, List.nodup_cons]
    refine ⟨?_, ih (n + 1)⟩
    intro hmem
    simp only [List.mem_map] at hmem
    obtain ⟨r, hr, hid⟩ := hmem
    have := (mkBulkSchedules_mem uid msg sender t (n + 1) rest r hr).1
    omega

theorem mkBulkSchedules_length (uid msg : String) (sender : Option String) (t : Int)
    (n : Nat) (cs : List Contact) :
    (mkBulkSchedules uid msg sender t n cs).length = cs.length := by
  induction cs generalizing n with
  | nil => rfl
  | cons c rest ih => simp [mkBulkSchedules, ih]

theorem mkBulkSchedules_recipients (uid msg : String) (sender : Option String) (t : Int)
    (n : Nat) (cs : List Contact) :
    (mkBulkSchedules uid msg sender t n cs).map ScheduledMessage.recipient
      = cs.map Contact.phone_number := by
  induction cs generalizing n with
  | nil => rfl
  | cons c rest ih => simp [mkBulkSchedules, ih]

theorem inv_schedule_bulk (db : DB) (uid : String) (req : ValidBulkRequest) (h : Inv db) :
    Inv (schedule_bulk_sms db uid req).2 := by
  unfold schedule_bulk_sms
  cases hf : findUser db uid with
  | none => exact h
  | some user =>
    simp only []
    split
    · exact h
    · split
      · exact h
      · have hmem : ∃ u ∈ db.users, u.id = uid :=
          ⟨user, (findUser_eq_some db uid user hf).1, (findUser_eq_some db uid user hf).2⟩
        have hch := inv_charge_none db uid
          (-(((resolveGroupContacts db uid req.group_ids).length : Money) * 32))
          "sms_scheduled" hmem h
        set cs := resolveGroupContacts db uid req.group_ids with hcs
        set rows := mkBulkSchedules uid req.message req.sender_id req.scheduled_time
          db.nextScheduleId cs with hrows
        have hmemRows := mkBulkSchedules_mem uid req.message req.sender_id
          req.scheduled_time db.nextScheduleId cs
        refine ⟨hch.ledger, hch.txnFK, ?_, hch.userNodup, ?_, ?_, ?_, ?_, ?_, ?_⟩
        · intro s' hs'
          rcases List.mem_append.mp hs' with hs'' | hs''
          · exact exists_id_balanceUpdate _ uid _ _ (h.schedFK s' hs'')
          · have := (hmemRows s' hs'').2.2.2.1
            rw [this]
            exact exists_id_balanceUpdate _ uid _ _ hmem
        · show ((db.scheduled ++ rows).map ScheduledMessage.id).Nodup
          rw [List.map_append]
          refine List.Nodup.append h.schedNodup (mkBulkSchedules_nodup _ _ _ _ _ _) ?_
          intro x hx hx'
          simp only [List.mem_map] at hx hx'
          obtain ⟨s', hs', rfl⟩ := hx
          obtain ⟨r, hr, hid⟩ := hx'
          have h1 := h.schedLt s' hs'
          have h2 := (hmemRows r hr).1
          omega
        · intro s' hs'
          rcases List.mem_append.mp hs' with hs'' | hs''
          · have := h.schedLt s' hs''
            show s'.id < db.nextScheduleId + cs.length
            omega
          · have h1 := (hmemRows s' hs'').2.1
            show s'.id < db.nextScheduleId + cs.length
            omega
        · intro t' ht' sid href
          rcases List.mem_append.mp ht' with ht'' | ht''
          · have := h.refValid t' ht'' sid href
            show sid < db.nextScheduleId + cs.length
            omega
          · simp only [List.mem_singleton] at ht''
            subst ht''
            simp at href
        · intro s' hs' hst
          rcases List.mem_append.mp hs' with hs'' | hs''
          · show refundsFor s'.id (db.transactions ++ [_]) = []
            rw [refundsFor_append]
            simpa using h.noRefund s' hs'' hst
          · have h1 := (hmemRows s' hs'').1
            show refundsFor s'.id (db.transactions ++ [_]) = []
            rw [refundsFor_append]
            have hfr : refundsFor s'.id db.transactions = [] := by
              refine refundsFor_fresh db.transactions s'.id ?_
              intro t' ht' sid href
              have := h.refValid t' ht' sid href
              omega
            simp [hfr]
        · intro s' hs' hst
          rcases List.mem_append.mp hs' with hs'' | hs''
          · show refundsFor s'.id (db.transactions ++ [_]) = _
            rw [refundsFor_append]
            simpa using h.oneRefund s' hs'' hst
          · have := (hmemRows s' hs'').2.2.1
            rw [this] at hst
            rcases hst with hst | hst
            · exact absurd hst (by decide)
            · exact absurd hst (by decide)
        · intro s' hs'
          rcases List.mem_append.mp hs' with hs'' | hs''
          · exact h.statusWF s' hs''
          · exact Or.inl (hmemRows s' hs'').2.2.1

theorem inv_bulk_route (db : DB) (uid : String) (now : Int)
    (raw : BulkScheduleRequest) (h : Inv db) :
    Inv (schedule_bulk_sms_route db uid now raw).2 := by
  unfold schedule_bulk_sms_route
  cases raw.validate now with
  | error e => exact h
  | ok req => exact inv_schedule_bulk db uid req h

/-! ## The due-scan: supporting lemmas -/

theorem claimRow_users (now : Int) (db : DB) (s : ScheduledMessage) :
    (claimRow now db s).users = db.users := rfl

theorem claimRow_transactions (now : Int) (db : DB) (s : ScheduledMessage) :
    (claimRow now db s).transactions = db.transactions := rfl

theorem claimRow_messages (now : Int) (db : DB) (s : ScheduledMessage) :
    (claimRow now db s).messages = db.messages := rfl

theorem claimRow_nextMessageId (now : Int) (db : DB) (s : ScheduledMessage) :
    (claimRow now db s).nextMessageId = db.nextMessageId := rfl

theorem claimRow_nextScheduleId (now : Int) (db : DB) (s : ScheduledMessage) :
    (claimRow now db s).nextScheduleId = db.nextScheduleId := rfl

theorem claimRow_scheduled (now : Int) (db : DB) (s : ScheduledMessage) :
    (claimRow now db s).scheduled =
      db.scheduled.map (fun r => if r.id = s.id then claimedRow now s else r) := rfl

theorem map_rowUpdate_comp (l : List ScheduledMessage) (sid : Nat)
    (f g : ScheduledMessage → ScheduledMessage) (hf : ∀ r, r.id = sid → (f r).id = sid) :
    (l.map (fun r => if r.id = sid then f r else r)).map
        (fun r => if r.id = sid then g r else r)
      = l.map (fun r => if r.id = sid then g (f r) else r) := by
  rw [List.map_map]
  refine List.map_congr_left (fun r _ => ?_)
  by_cases hc : r.id = sid
  · simp only [Function.comp_apply, if_pos hc, if_pos (hf r hc)]
  · simp only [Function.comp_apply, if_neg hc]

theorem processOne_sent_scheduled (db : DB) (now : Int) (gw : Nat → Bool)
    (gwErr : Nat → String) (s : ScheduledMessage) (hgw : gw s.id = true) :
    (processOne now gw gwErr db s).scheduled =
      db.scheduled.map (fun r =>
        if r.id = s.id then sentRow now db.nextMessageId (claimedRow now s) else r) := by
  unfold processOne outcomeWrite
  simp only [hgw, if_true, claimRow_nextMessageId, updateScheduleRow_scheduled]
  show ((claimRow now db s).scheduled.map _) = _
  rw [claimRow_scheduled]
  exact map_rowUpdate_comp db.scheduled s.id _ _ (fun r hr => rfl)

theorem processOne_sent_users (db : DB) (now : Int) (gw : Nat → Bool)
    (gwErr : Nat → String) (s : ScheduledMessage) (hgw : gw s.id = true) :
    (processOne now gw gwErr db s).users = db.users := by
  unfold processOne outcomeWrite
  simp only [hgw, if_true]
  rfl

theorem processOne_sent_transactions (db : DB) (now : Int) (gw : Nat → Bool)
    (gwErr : Nat → String) (s : ScheduledMessage) (hgw : gw s.id = true) :
    (processOne now gw gwErr db s).transactions = db.transactions := by
  unfold processOne outcomeWrite
  simp only [hgw, if_true]
  rfl

theorem processOne_sent_messages (db : DB) (now : Int) (gw : Nat → Bool)
    (gwErr : Nat → String) (s : ScheduledMessage) (hgw : gw s.id = true) :
    (processOne now gw gwErr db s).messages = db.messages ++
      [⟨db.nextMessageId, s.user_id, s.recipient, s.message, s.sender_id, "sent", s.cost⟩] := by
  unfold processOne outcomeWrite
  simp only [hgw, if_true]
  rfl

theorem processOne_sent_nextScheduleId (db : DB) (now : Int) (gw : Nat → Bool)
    (gwErr : Nat → String) (s : ScheduledMessage) (hgw : gw s.id = true) :
    (processOne now gw gwErr db s).nextScheduleId = db.nextScheduleId := by
  unfold processOne outcomeWrite
  simp only [hgw, if_true]
  rfl

theorem processOne_fail_scheduled (db : DB) (now : Int) (gw : Nat → Bool)
    (gwErr : Nat → String) (s : ScheduledMessage) (hgw : gw s.id = false) :
    (processOne now gw gwErr db s).scheduled =
      db.scheduled.map (fun r =>
        if r.id = s.id then failedRow (gwErr s.id) (claimedRow now s) else r) := by
  unfold processOne outcomeWrite
  simp only [hgw, Bool.false_eq_true, if_false]
  cases hfu : findUser (updateScheduleRow (claimRow now db s) s.id
      (failedRow (gwErr s.id))) s.user_id with
  | none =>
    simp only [updateScheduleRow_scheduled, claimRow_scheduled]
    exact map_rowUpdate_comp db.scheduled s.id _ _ (fun r hr => rfl)
  | some u =>
    simp only [appendTxn_scheduled, updateUserBalance_scheduled,
      updateScheduleRow_scheduled, claimRow_scheduled]
    exact map_rowUpdate_comp db.scheduled s.id _ _ (fun r hr => rfl)

theorem processOne_fail_users (db : DB) (now : Int) (gw : Nat → Bool)
    (gwErr : Nat → String) (s : ScheduledMessage) (u : User) (hgw : gw s.id = false)
    (hfu : findUser db s.user_id = some u) :
    (processOne now gw gwErr db s).users = db.users.map (fun u' =>
      if u'.id = s.user_id then
        { u' with wallet_balance := u'.wallet_balance + s.cost } else u') := by
  unfold processOne outcomeWrite
  simp only [hgw, Bool.false_eq_true, if_false]
  have hscr : findUser (updateScheduleRow (claimRow now db s) s.id
      (failedRow (gwErr s.id))) s.user_id = findUser db s.user_id := rfl
  rw [hscr, hfu]
  rfl

theorem processOne_fail_transactions (db : DB) (now : Int) (gw : Nat → Bool)
    (gwErr : Nat → String) (s : ScheduledMessage) (u : User) (hgw : gw s.id = false)
    (hfu : findUser db s.user_id = some u) :
    (processOne now gw gwErr db s).transactions =
      db.transactions ++ [⟨s.user_id, s.cost, "sms_refund", some s.id⟩] := by
  unfold processOne outcomeWrite
  simp only [hgw, Bool.false_eq_true, if_false]
  have hscr : findUser (updateScheduleRow (claimRow now db s) s.id
      (failedRow (gwErr s.id))) s.user_id = findUser db s.user_id := rfl
  rw [hscr, hfu]
  rfl

theorem processOne_fail_nextScheduleId (db : DB) (now : Int) (gw : Nat → Bool)
    (gwErr : Nat → String) (s : ScheduledMessage) (hgw : gw s.id = false) :
    (processOne now gw gwErr db s).nextScheduleId = db.nextScheduleId := by
  unfold processOne outcomeWrite
  simp only [hgw, Bool.false_eq_true, if_false]
  cases hfu : findUser (updateScheduleRow (claimRow now db s) s.id
      (failedRow (gwErr s.id))) s.user_id <;> rfl

theorem processOne_messages_length (db : DB) (now : Int) (gw : Nat → Bool)
    (gwErr : Nat → String) (s : ScheduledMessage) :
    (processOne now gw gwErr db s).messages.length =
      db.messages.length + (if gw s.id then 1 else 0) := by
  cases hgw : gw s.id with
  | true =>
    rw [processOne_sent_messages db now gw gwErr s hgw]
    simp
  | false =>
    simp only [Bool.false_eq_true, if_false]
    unfold processOne outcomeWrite
    simp only [hgw, Bool.false_eq_true, if_false]
    cases hfu : findUser (updateScheduleRow (claimRow now db s) s.id
        (failedRow (gwErr s.id))) s.user_id <;> rfl

theorem processOne_scheduled_ne (db : DB) (now : Int) (gw : Nat → Bool)
    (gwErr : Nat → String) (s r : ScheduledMessage) (hr : r ∈ db.scheduled)
    (hne : r.id ≠ s.id) : r ∈ (processOne now gw gwErr db s).scheduled := by
  cases hgw : gw s.id with
  | true =>
    rw [processOne_sent_scheduled db now gw gwErr s hgw]
    exact List.mem_map.mpr ⟨r, hr, if_neg hne⟩
  | false =>
    rw [processOne_fail_scheduled db now gw gwErr s hgw]
    exact List.mem_map.mpr ⟨r, hr, if_neg hne⟩

theorem map_schedReplace_ids (l : List ScheduledMessage) (sid : Nat) (w : ScheduledMessage)
    (hw : w.id = sid) :
    (l.map (fun r => if r.id = sid then w else r)).map ScheduledMessage.id
      = l.map ScheduledMessage.id := by
  rw [List.map_map]
  refine List.map_congr_left (fun r _ => ?_)
  by_cases hc : r.id = sid
  · show (if r.id = sid then w else r).id = r.id
    rw [if_pos hc, hw, hc]
  · show (if r.id = sid then w else r).id = r.id
    rw [if_neg hc]

theorem inv_processOne (db : DB) (now : Int) (gw : Nat → Bool) (gwErr : Nat → String)
    (s : ScheduledMessage) (hs : s ∈ db.scheduled) (hpend : s.status = "pending")
    (h : Inv db) : Inv (processOne now gw gwErr db s) := by
  cases hgw : gw s.id with
  | true =>
    have hsch := processOne_sent_scheduled db now gw gwErr s hgw
    have husr := processOne_sent_users db now gw gwErr s hgw
    have htx := processOne_sent_transactions db now gw gwErr s hgw
    have hnid := processOne_sent_nextScheduleId db now gw gwErr s hgw
    refine ⟨?_, ?_, ?_, ?_, ?_, ?_, ?_, ?_, ?_, ?_⟩
    · intro u hu
      rw [husr] at hu
      rw [htx]
      exact h.ledger u hu
    · intro t ht
      rw [htx] at ht
      rw [husr]
      exact h.txnFK t ht
    · intro r' hr'
      rw [hsch] at hr'
      rw [husr]
      obtain ⟨r, hr, rfl⟩ := List.mem_map.mp hr'
      by_cases hc : r.id = s.id
      · rw [if_pos hc]
        exact h.schedFK s hs
      · rw [if_neg hc]
        exact h.schedFK r hr
    · rw [husr]
      exact h.userNodup
    · show ((processOne now gw gwErr db s).scheduled.map ScheduledMessage.id).Nodup
      rw [hsch, map_schedReplace_ids db.scheduled s.id
        (sentRow now db.nextMessageId (claimedRow now s)) rfl]
      exact h.schedNodup
    · intro r' hr'
      rw [hsch] at hr'
      rw [hnid]
      obtain ⟨r, hr, rfl⟩ := List.mem_map.mp hr'
      by_cases hc : r.id = s.id
      · rw [if_pos hc]
        exact h.schedLt s hs
      · rw [if_neg hc]
        exact h.schedLt r hr
    · intro t ht sid href
      rw [htx] at ht
      rw [hnid]
      exact h.refValid t ht sid href
    · intro r' hr' hst
      rw [hsch] at hr'
      rw [htx]
      obtain ⟨r, hr, rfl⟩ := List.mem_map.mp hr'
      by_cases hc : r.id = s.id
      · rw [if_pos hc]
        exact h.noRefund s hs (Or.inl hpend)
      · rw [if_neg hc] at hst ⊢
        exact h.noRefund r hr hst
    · intro r' hr' hst
      rw [hsch] at hr'
      rw [htx]
      obtain ⟨r, hr, rfl⟩ := List.mem_map.mp hr'
      by_cases hc : r.id = s.id
      · rw [if_pos hc] at hst
        have hst' : "sent" = "failed" ∨ "sent" = "cancelled" := hst
        rcases hst' with hx | hx <;> exact absurd hx (by decide)
      · rw [if_neg hc] at hst ⊢
        exact h.oneRefund r hr hst
    · intro r' hr'
      rw [hsch] at hr'
      obtain ⟨r, hr, rfl⟩ := List.mem_map.mp hr'
      by_cases hc : r.id = s.id
      · rw [if_pos hc]
        right; right; left; rfl
      · rw [if_neg hc]
        exact h.statusWF r hr
  | false =>
    obtain ⟨u, hfu⟩ := findUser_isSome db s.user_id (h.schedFK s hs)
    have hsch := processOne_fail_scheduled db now gw gwErr s hgw
    have husr := processOne_fail_users db now gw gwErr s u hgw hfu
    have htx := processOne_fail_transactions db now gw gwErr s u hgw hfu
    have hnid := processOne_fail_nextScheduleId db now gw gwErr s hgw
    refine ⟨?_, ?_, ?_, ?_, ?_, ?_, ?_, ?_, ?_, ?_⟩
    · intro u' hu'
      rw [husr] at hu'
      rw [htx]
      exact ledger_charge db s.user_id s.cost "sms_refund" (some s.id) h.ledger u' hu'
    · intro t ht
      rw [htx] at ht
      rw [husr]
      rcases List.mem_append.mp ht with ht' | ht'
      · exact exists_id_balanceUpdate _ _ _ _ (h.txnFK t ht')
      · simp only [List.mem_singleton] at ht'
        subst ht'
        exact exists_id_balanceUpdate _ _ _ _ (h.schedFK s hs)
    · intro r' hr'
      rw [hsch] at hr'
      rw [husr]
      obtain ⟨r, hr, rfl⟩ := List.mem_map.mp hr'
      by_cases hc : r.id = s.id
      · rw [if_pos hc]
        exact exists_id_balanceUpdate _ _ _ _ (h.schedFK s hs)
      · rw [if_neg hc]
        exact exists_id_balanceUpdate _ _ _ _ (h.schedFK r hr)
    · show ((processOne now gw gwErr db s).users.map User.id).Nodup
      rw [husr, map_balanceUpdate_ids]
      exact h.userNodup
    · show ((processOne now gw gwErr db s).scheduled.map ScheduledMessage.id).Nodup
      rw [hsch, map_schedReplace_ids db.scheduled s.id
        (failedRow (gwErr s.id) (claimedRow now s)) rfl]
      exact h.schedNodup
    · intro r' hr'
      rw [hsch] at hr'
      rw [hnid]
      obtain ⟨r, hr, rfl⟩ := List.mem_map.mp hr'
      by_cases hc : r.id = s.id
      · rw [if_pos hc]
        exact h.schedLt s hs
      · rw [if_neg hc]
        exact h.schedLt r hr
    · intro t ht sid href
      rw [htx] at ht
      rw [hnid]
      rcases List.mem_append.mp ht with ht' | ht'
      · exact h.refValid t ht' sid href
      · simp only [List.mem_singleton] at ht'
        subst ht'
        simp only [Option.some_inj] at href
        subst href
        exact h.schedLt s hs
    · intro r' hr' hst
      rw [hsch] at hr'
      rw [htx]
      obtain ⟨r, hr, rfl⟩ := List.mem_map.mp hr'
      by_cases hc : r.id = s.id
      · rw [if_pos hc] at hst
        have hst' : "failed" = "pending" ∨ "failed" = "processing" ∨ "failed" = "sent" := hst
        rcases hst' with hx | hx | hx <;> exact absurd hx (by decide)
      · rw [if_neg hc] at hst ⊢
        show refundsFor r.id (db.transactions ++ [_]) = []
        rw [refundsFor_append]
        have hne : ¬ ((some s.id : Option Nat) = some r.id) := by
          simp only [Option.some_inj]
          exact fun hx => hc hx.symm
        simp only [hne, if_neg]
        simpa using h.noRefund r hr hst
    · intro r' hr' hst
      rw [hsch] at hr'
      rw [htx]
      obtain ⟨r, hr, rfl⟩ := List.mem_map.mp hr'
      by_cases hc : r.id = s.id
      · rw [if_pos hc]
        have hrs : r = s := List.inj_on_of_nodup_map h.schedNodup hr hs hc
        subst hrs
        show refundsFor r.id (db.transactions ++ [⟨r.user_id, r.cost, "sms_refund", some r.id⟩])
          = [⟨r.user_id, r.cost, "sms_refund", some r.id⟩]
        rw [refundsFor_append, h.noRefund r hr (Or.inl hpend)]
        simp
      · rw [if_neg hc] at hst ⊢
        show refundsFor r.id (db.transactions ++ [_]) = _
        rw [refundsFor_append]
        have hne : ¬ ((some s.id : Option Nat) = some r.id) := by
          simp only [Option.some_inj]
          exact fun hx => hc hx.symm
        simp only [hne, if_neg]
        simpa using h.oneRefund r hr hst
    · intro r' hr'
      rw [hsch] at hr'
      obtain ⟨r, hr, rfl⟩ := List.mem_map.mp hr'
      by_cases hc : r.id = s.id
      · rw [if_pos hc]
        right; right; right; left; rfl
      · rw [if_neg hc]
        exact h.statusWF r hr

theorem inv_processSnapshot (now : Int) (gw : Nat → Bool) (gwErr : Nat → String)
    (snap : List ScheduledMessage) :
    ∀ db : DB, Inv db → SnapOK db snap → Inv (processSnapshot now gw gwErr db snap) := by
  induction snap with
  | nil => intro db h _; exact h
  | cons s rest ih =>
    intro db h hsnap
    have hsmem := hsnap.2 s (List.mem_cons_self s rest)
    have hnodup : (s.id :: rest.map ScheduledMessage.id).Nodup := by
      simpa using hsnap.1
    have h1 : Inv (processOne now gw gwErr db s) :=
      inv_processOne db now gw gwErr s hsmem.1 hsmem.2 h
    have h2 : SnapOK (processOne now gw gwErr db s) rest := by
      refine ⟨(List.nodup_cons.mp hnodup).2, ?_⟩
      intro r hrr
      have hmem := hsnap.2 r (List.mem_cons_of_mem s hrr)
      have hne : r.id ≠ s.id := by
        intro hc
        exact (List.nodup_cons.mp hnodup).1 (hc ▸ List.mem_map_of_mem _ hrr)
      exact ⟨processOne_scheduled_ne db now gw gwErr s r hmem.1 hne, hmem.2⟩
    show Inv (processSnapshot now gw gwErr (processOne now gw gwErr db s) rest)
    exact ih (processOne now gw gwErr db s) h1 h2

theorem dueList_mem (db : DB) (now : Int) (s : ScheduledMessage)
    (hs : s ∈ dueList db now) :
    s ∈ db.scheduled ∧ s.status = "pending" ∧ s.scheduled_time ≤ now := by
  rw [dueList, List.mem_filter] at hs
  refine ⟨hs.1, ?_, ?_⟩
  · have := hs.2
    simp only [decide_eq_true_eq] at this
    exact this.1
  · have := hs.2
    simp only [decide_eq_true_eq] at this
    exact this.2

theorem dueList_snapOK (db : DB) (now : Int) (h : Inv db) :
    SnapOK db (dueList db now) := by
  constructor
  · exact ((List.filter_sublist _).map ScheduledMessage.id).nodup h.schedNodup
  · intro s hs
    exact ⟨(dueList_mem db now s hs).1, (dueList_mem db now s hs).2.1⟩

theorem inv_scan (db : DB) (now : Int) (gw : Nat → Bool) (gwErr : Nat → String)
    (h : Inv db) : Inv (process_scheduled_messages db now gw gwErr) :=
  inv_processSnapshot now gw gwErr (dueList db now) db h (dueList_snapOK db now h)

theorem inv_step (db : DB) (e : Event) (h : Inv db) : Inv (stepEvent db e) := by
  cases e with
  | ensureUser uid clerk email username => exact inv_ensure_user db uid clerk email username h
  | topup uid amount => exact inv_topup_route db uid amount h
  | createContact uid phone name => exact inv_create_contact db uid phone name h
  | createGroup uid name => exact inv_create_group db uid name h
  | addContactsToGroup uid gid cids => exact inv_add_contacts db uid gid cids h
  | sendSms uid msg recipients sender => exact inv_send_sms db uid msg recipients sender h
  | dispatchSms ids outcome => exact inv_dispatch db ids outcome h
  | scheduleSms uid now raw => exact inv_schedule_route db uid now raw h
  | scheduleBulkSms uid now raw => exact inv_bulk_route db uid now raw h
  | updateSchedule uid sid now raw => exact inv_update_route db sid uid now raw h
  | cancelSchedule uid sid => exact inv_cancel db sid uid h
  | scanDue now gw gwErr => exact inv_scan db now gw gwErr h
  | devSend uid msg recipients resp => exact inv_client_send db uid msg recipients resp h

theorem inv_foldl (es : List Event) :
    ∀ db : DB, Inv db → Inv (es.foldl stepEvent db) := by
  induction es with
  | nil => intro db h; exact h
  | cons e rest ih =>
    intro db h
    exact ih (stepEvent db e) (inv_step db e h)

theorem inv_run (es : List Event) : Inv (run es) :=
  inv_foldl es initDB inv_initDB

/-! ## Claim theorems -/

/-- C1: over any serialized trace of operations, a ScheduledMessage whose
status is `failed` (reached through the due-scan's gateway-failure branch)
or `cancelled` (reached through user cancel from `pending`) has exactly one
refund ledger row — type `sms_refund`, amount equal to its reserved cost,
credited to its owner — and a ScheduledMessage whose status is `sent` has
none. -/
theorem refund_exactly_once (es : List Event) :
    ∀ s ∈ (run es).scheduled,
      ((s.status = "failed" ∨ s.status = "cancelled") →
        refundsFor s.id (run es).transactions =
          [⟨s.user_id, s.cost, "sms_refund", some s.id⟩]) ∧
      (s.status = "sent" → refundsFor s.id (run es).transactions = []) :=
  fun s hs =>
    ⟨fun hst => (inv_run es).oneRefund s hs hst,
     fun hst => (inv_run es).noRefund s hs (Or.inr (Or.inr hst))⟩

/-- Witness for C1: in the create/topup/schedule/cancel trace, the
cancelled schedule has exactly one refund row of its cost 32. -/
theorem refund_exactly_once_witness :
    refundsFor 1 (run wTraceCancel).transactions =
      [⟨"u1", (32 : Money), "sms_refund", some 1⟩] :=
  (refund_exactly_once wTraceCancel wCancelledRow
    (by
      have hz : (run wTraceCancel).scheduled = [wCancelledRow] := rfl
      rw [hz]
      exact List.mem_singleton_self _)).1
    (Or.inr rfl)

/-- C2: over any serialized trace of the money-touching operations (top-up,
immediate and bulk send, schedule and bulk-schedule creation, cancel,
due-scan, developer-API send), every user's wallet_balance equals the
signed sum of that user's Transactions rows. -/
theorem wallet_equals_ledger (es : List Event) :
    ∀ u ∈ (run es).users, u.wallet_balance = txnSum u.id (run es).transactions :=
  fun u hu => (inv_run es).ledger u hu

/-- Witness for C2: after create-user and top-up 50, the stored balance 50
equals the ledger sum. -/
theorem wallet_equals_ledger_witness :
    (50 : Money) = txnSum "u2" (run wTraceTopup).transactions :=
  wallet_equals_ledger wTraceTopup ⟨"u2", "clerk2", "b@b.co", "bob", 50⟩
    (by
      have hz : (run wTraceTopup).users = [⟨"u2", "clerk2", "b@b.co", "bob", 50⟩] := rfl
      rw [hz]
      exact List.mem_singleton_self _)

/-- C3: `schedule_sms` for a user whose balance is strictly below the unit
cost 32.0 fails with the insufficient-balance error and returns the store
unchanged: no wallet change, no Transactions row, no ScheduledMessages
row. -/
theorem schedule_insufficient_funds (db : DB) (uid : String) (req : ValidScheduleRequest)
    (u : User) (hu : findUser db uid = some u) (hlt : u.wallet_balance < 32) :
    schedule_sms db uid req = (.error .insufficientBalance, db) := by
  unfold schedule_sms
  rw [hu]
  simp only []
  rw [if_pos hlt]

/-- Witness for C3: a user with balance 10 scheduling a message. -/
theorem schedule_insufficient_funds_witness :
    schedule_sms wDbPoor "u1" ⟨"hello", "+256700000001", 600, none⟩ =
      (.error .insufficientBalance, wDbPoor) :=
  schedule_insufficient_funds wDbPoor "u1" ⟨"hello", "+256700000001", 600, none⟩
    ⟨"u1", "clerk1", "a@b.co", "alice", 10⟩ (by decide) (by decide)

/-- C4: a schedule request whose scheduledTime, after localizing a naive
stamp to EAT, is not strictly in the future is rejected by pydantic
validation before the handler runs: the route returns a validation error
and the store unchanged. -/
theorem schedule_past_time_rejected (db : DB) (uid : String) (now : Int)
    (raw : ScheduleSMSRequest) (h : localizeEAT raw.scheduled_time ≤ now) :
    ∃ e, schedule_sms_route db uid now raw = (.error (.validation e), db) := by
  unfold schedule_sms_route ScheduleSMSRequest.validate
  cases hm : validate_message raw.message with
  | error e => exact ⟨e, rfl⟩
  | ok m =>
    cases hr : validate_recipient raw.recipient with
    | error e => exact ⟨e, rfl⟩
    | ok rcp =>
      have ht : validate_time now raw.scheduled_time =
          .error "Scheduled time must be in the future" := by
        unfold validate_time
        rw [if_pos h]
      rw [ht]
      exact ⟨"Scheduled time must be in the future", rfl⟩

/-- Witness for C4: a naive stamp in the past (wall 500 at now 1000). -/
theorem schedule_past_time_rejected_witness :
    ∃ e, schedule_sms_route wDbDev "u1" 1000
      ⟨"hi", "+256700000001", .naive 500, none⟩ =
        (.error (.validation e), wDbDev) :=
  schedule_past_time_rejected wDbDev "u1" 1000
    ⟨"hi", "+256700000001", .naive 500, none⟩ (by decide)

/-! ## Scan micro-step lemmas -/

theorem claimsOf_append (a b : List ScanStep) :
    claimsOf (a ++ b) = claimsOf a ++ claimsOf b := by
  induction a with
  | nil => rfl
  | cons x rest ih => cases x <;> simp [claimsOf, ih]

theorem claimsOf_scanBody (gw : Nat → Bool) (l : List ScheduledMessage) :
    claimsOf (scanBody gw l) = l := by
  induction l with
  | nil => rfl
  | cons s rest ih => simp [scanBody, claimsOf, ih]

theorem execScanSteps_no_commit (now : Int) (gwErr : Nat → String) :
    ∀ (steps : List ScanStep) (st : ScanState), ScanStep.commit ∉ steps →
      (execScanSteps now gwErr st steps).durable = st.durable := by
  intro steps
  induction steps with
  | nil => intro st _; rfl
  | cons a rest ih =>
    intro st hmem
    cases a with
    | claim s => exact ih _ (fun hc => hmem (List.mem_cons_of_mem _ hc))
    | outcome s ok => exact ih _ (fun hc => hmem (List.mem_cons_of_mem _ hc))
    | commit => exact absurd (List.mem_cons_self _ _) hmem

theorem commit_not_mem_scanBody (gw : Nat → Bool) (l : List ScheduledMessage) :
    ScanStep.commit ∉ scanBody gw l := by
  induction l with
  | nil => simp [scanBody]
  | cons s rest ih => simp [scanBody, ih]

theorem exec_scanBody_append (now : Int) (gw : Nat → Bool) (gwErr : Nat → String)
    (snap : List ScheduledMessage) :
    ∀ (st : ScanState) (rest : List ScanStep),
      execScanSteps now gwErr st (scanBody gw snap ++ rest) =
        execScanSteps now gwErr
          ⟨processSnapshot now gw gwErr st.session snap, st.durable⟩ rest := by
  induction snap with
  | nil => intro st rest; rfl
  | cons s tail ih =>
    intro st rest
    show execScanSteps now gwErr
        ⟨processOne now gw gwErr st.session s, st.durable⟩ (scanBody gw tail ++ rest) = _
    exact ih ⟨processOne now gw gwErr st.session s, st.durable⟩ rest

theorem processOne_terminal (db : DB) (now : Int) (gw : Nat → Bool) (gwErr : Nat → String)
    (s : ScheduledMessage) (hs : s ∈ db.scheduled) :
    ∃ r ∈ (processOne now gw gwErr db s).scheduled, r.id = s.id ∧
      r.status = (if gw s.id then "sent" else "failed") := by
  cases hgw : gw s.id with
  | true =>
    rw [processOne_sent_scheduled db now gw gwErr s hgw]
    exact ⟨sentRow now db.nextMessageId (claimedRow now s),
      List.mem_map.mpr ⟨s, hs, if_pos rfl⟩, rfl, rfl⟩
  | false =>
    rw [processOne_fail_scheduled db now gw gwErr s hgw]
    exact ⟨failedRow (gwErr s.id) (claimedRow now s),
      List.mem_map.mpr ⟨s, hs, if_pos rfl⟩, rfl, rfl⟩

theorem processSnapshot_preserves_row (now : Int) (gw : Nat → Bool) (gwErr : Nat → String)
    (snap : List ScheduledMessage) :
    ∀ (db : DB) (r : ScheduledMessage), r ∈ db.scheduled →
      (∀ s ∈ snap, r.id ≠ s.id) →
      r ∈ (processSnapshot now gw gwErr db snap).scheduled := by
  induction snap with
  | nil => intro db r hr _; exact hr
  | cons a rest ih =>
    intro db r hr hne
    exact ih _ r
      (processOne_scheduled_ne db now gw gwErr a r hr (hne a (List.mem_cons_self _ _)))
      (fun s hs => hne s (List.mem_cons_of_mem a hs))

theorem processSnapshot_terminal (now : Int) (gw : Nat → Bool) (gwErr : Nat → String)
    (snap : List ScheduledMessage) :
    ∀ db : DB, (snap.map ScheduledMessage.id).Nodup →
      (∀ x ∈ snap, x ∈ db.scheduled) →
      ∀ s ∈ snap, ∃ r ∈ (processSnapshot now gw gwErr db snap).scheduled,
        r.id = s.id ∧ r.status = (if gw s.id then "sent" else "failed") := by
  induction snap with
  | nil => intro db _ _ s hs; exact absurd hs (List.not_mem_nil s)
  | cons a rest ih =>
    intro db hnd hmem s hs
    have hnd' : (a.id :: rest.map ScheduledMessage.id).Nodup := by simpa using hnd
    rcases List.mem_cons.mp hs with rfl | hs'
    · obtain ⟨r, hr, hid, hstat⟩ :=
        processOne_terminal db now gw gwErr s (hmem s (List.mem_cons_self _ _))
      refine ⟨r, ?_, hid, hstat⟩
      show r ∈ (processSnapshot now gw gwErr (processOne now gw gwErr db s) rest).scheduled
      refine processSnapshot_preserves_row now gw gwErr rest _ r hr ?_
      intro x hx hc
      exact (List.nodup_cons.mp hnd').1 (by rw [hid] at hc; rw [hc]; exact List.mem_map_of_mem _ hx)
    · refine ih (processOne now gw gwErr db a) (List.nodup_cons.mp hnd').2 ?_ s hs'
      intro x hx
      have hxne : x.id ≠ a.id := by
        intro hc
        exact (List.nodup_cons.mp hnd').1 (hc ▸ List.mem_map_of_mem _ hx)
      exact processOne_scheduled_ne db now gw gwErr a x
        (hmem x (List.mem_cons_of_mem a hx)) hxne

theorem dueList_ids_nodup (db : DB) (now : Int)
    (hnd : (db.scheduled.map ScheduledMessage.id).Nodup) :
    ((dueList db now).map ScheduledMessage.id).Nodup :=
  ((List.filter_sublist _).map ScheduledMessage.id).nodup hnd

/-! ## Claims C5, C6, C7 -/

/-- C5 counterexample: the due query has no ORDER BY; in a store whose two
due rows sit in descending scheduledTime order (times 200 then 100), the
scan claims (and hence sends) them in row order [200, 100], which is not
ascending — refuting "the scan processes the items in ascending
scheduledTime order". -/
theorem scan_order_not_sorted_cex :
    (claimsOf (scanSteps wDbTwoDue 1000 gwAllOk)).map ScheduledMessage.scheduled_time
        = [200, 100] ∧
    ¬ List.Pairwise (fun a b : Int => a ≤ b)
      ((claimsOf (scanSteps wDbTwoDue 1000 gwAllOk)).map ScheduledMessage.scheduled_time) := by
  refine ⟨rfl, ?_⟩
  intro hp
  rw [show (claimsOf (scanSteps wDbTwoDue 1000 gwAllOk)).map ScheduledMessage.scheduled_time
      = [(200 : Int), 100] from rfl] at hp
  have := List.rel_of_pairwise_cons hp (List.mem_singleton_self _)
  omega

/-- C5 amended: within one scan the due items are processed — claimed and
sent — in the row order of the due query result, which is the
scheduled_messages table order restricted to `pending` and due rows (the
query applies no ordering); ascending scheduledTime order is not applied. -/
theorem scan_processes_in_row_order (db : DB) (now : Int) (gw : Nat → Bool) :
    claimsOf (scanSteps db now gw) = dueList db now ∧
    List.Sublist (dueList db now) db.scheduled := by
  constructor
  · unfold scanSteps
    by_cases hd : dueList db now = []
    · rw [if_pos hd, hd]
      rfl
    · rw [if_neg hd, claimsOf_append, claimsOf_scanBody]
      simp [claimsOf]
  · exact List.filter_sublist _

/-- C6 counterexample: the scan contains exactly one commit, placed after
the whole loop; executing every step of a two-item scan except that final
commit leaves the durable store unchanged — the successfully processed
item 2 is `sent` in the session but still `pending` durably.  Per-item
changes are therefore not committed independently: losing the single final
commit loses every item's changes. -/
theorem scan_not_per_item_commit_cex :
    (scanSteps wDbTwoDue 1000 gwOnly2).count ScanStep.commit = 1 ∧
    (execScanSteps 1000 gwErrC ⟨wDbTwoDue, wDbTwoDue⟩
        (scanBody gwOnly2 (dueList wDbTwoDue 1000))).durable = wDbTwoDue ∧
    (∃ r ∈ (execScanSteps 1000 gwErrC ⟨wDbTwoDue, wDbTwoDue⟩
        (scanBody gwOnly2 (dueList wDbTwoDue 1000))).session.scheduled,
      r.id = 2 ∧ r.status = "sent") ∧
    (∃ r ∈ wDbTwoDue.scheduled, r.id = 2 ∧ r.status = "pending") := by
  refine ⟨rfl, rfl, by decide, by decide⟩

/-- C6 amended: per-item *processing* is isolated — every due item reaches
its own terminal state, determined solely by its own gateway outcome, even
when other items' gateway calls fail (the per-item exception is caught) —
but persistence is not: all per-item changes are written by the one commit
at the end of the scan, and if that commit does not execute, no item's
changes are durable. -/
theorem scan_isolation_single_commit (db : DB) (now : Int) (gw : Nat → Bool)
    (gwErr : Nat → String) (hnd : (db.scheduled.map ScheduledMessage.id).Nodup) :
    (∀ s ∈ dueList db now,
      ∃ r ∈ (process_scheduled_messages db now gw gwErr).scheduled,
        r.id = s.id ∧ r.status = (if gw s.id then "sent" else "failed")) ∧
    (execScanSteps now gwErr ⟨db, db⟩ (scanBody gw (dueList db now))).durable = db := by
  constructor
  · intro s hs
    exact processSnapshot_terminal now gw gwErr (dueList db now) db
      (dueList_ids_nodup db now hnd)
      (fun x hx => (dueList_mem db now x hx).1) s hs
  · exact execScanSteps_no_commit now gwErr _ _ (commit_not_mem_scanBody gw _)

/-- Witness for C6: in the two-item store, item 1's gateway failure does
not prevent item 2 from reaching `sent` in the committed scan result. -/
theorem scan_isolation_single_commit_witness :
    ∃ r ∈ (process_scheduled_messages wDbTwoDue 1000 gwOnly2 gwErrC).scheduled,
      r.id = 2 ∧ r.status = (if gwOnly2 2 then "sent" else "failed") := by
  have h := (scan_isolation_single_commit wDbTwoDue 1000 gwOnly2 gwErrC (by decide)).1
    ⟨2, "u1", "+256700000002", "early", none, 100, "pending", 32, 0, none, none, none, none⟩
    (by decide)
  exact h

/-- C7 counterexample: in a one-item store the scan steps are
[claim, send-outcome, commit]; at the moment the gateway send for the item
begins (after executing only its claim step) the durable store is the
original one, where the item's status is still `pending`, not
`processing` — the claim transition is not durable before the send. -/
theorem scan_claim_not_durable_before_send_cex :
    scanSteps wDbOneDue 1000 gwAllOk =
      [ScanStep.claim wRowOneDue, ScanStep.outcome wRowOneDue true, ScanStep.commit] ∧
    (execScanSteps 1000 gwErrC ⟨wDbOneDue, wDbOneDue⟩
        [ScanStep.claim wRowOneDue]).durable = wDbOneDue ∧
    rowById wDbOneDue 1 = some wRowOneDue ∧
    wRowOneDue.status = "pending" ∧ "pending" ≠ "processing" := by
  refine ⟨rfl, rfl, rfl, rfl, by decide⟩

/-- C7 amended: the pending→processing claim write is only applied to the
in-memory session; no commit precedes any gateway send — at every proper
program point of the scan (any strict step-sequence position before the
end) the durable store still equals the pre-scan store, and durability
arrives only with the single final commit, whose result is the full scan
outcome. -/
theorem scan_durable_only_at_final_commit (db : DB) (now : Int) (gw : Nat → Bool)
    (gwErr : Nat → String) :
    (∀ pre post, scanSteps db now gw = pre ++ post → post ≠ [] →
      (execScanSteps now gwErr ⟨db, db⟩ pre).durable = db) ∧
    (execScanSteps now gwErr ⟨db, db⟩ (scanSteps db now gw)).durable =
      process_scheduled_messages db now gw gwErr := by
  constructor
  · intro pre post heq hpost
    apply execScanSteps_no_commit
    unfold scanSteps at heq
    by_cases hd : dueList db now = []
    · rw [if_pos hd] at heq
      obtain ⟨h1, h2⟩ := List.append_eq_nil.mp heq.symm
      exact absurd h2 hpost
    · rw [if_neg hd] at heq
      intro hc
      have hlen : pre.length ≤ (scanBody gw (dueList db now)).length := by
        have : (scanBody gw (dueList db now)).length + 1 = pre.length + post.length := by
          have := congrArg List.length heq
          simpa using this
        have hp : 1 ≤ post.length := by
          cases post with
          | nil => exact absurd rfl hpost
          | cons x xs => simp
        omega
      have hpre : pre = (scanBody gw (dueList db now)).take pre.length := by
        have h1 : pre = (pre ++ post).take pre.length := (List.take_left pre post).symm
        rw [← heq] at h1
        rw [h1, List.take_append_eq_append_take]
        have : pre.length - (scanBody gw (dueList db now)).length = 0 := by omega
        rw [this]
        simp
      rw [hpre] at hc
      exact commit_not_mem_scanBody gw (dueList db now)
        (List.take_subset pre.length _ hc)
  · unfold scanSteps
    by_cases hd : dueList db now = []
    · rw [if_pos hd]
      show db = process_scheduled_messages db now gw gwErr
      unfold process_scheduled_messages processSnapshot
      rw [hd]
      rfl
    · rw [if_neg hd, exec_scanBody_append]
      rfl

/-- Witness for C7: in the one-item store, after the prefix consisting of
the item's claim step (the state in which the gateway send runs), the
durable store is unchanged. -/
theorem scan_durable_only_at_final_commit_witness :
    (execScanSteps 1000 gwErrC ⟨wDbOneDue, wDbOneDue⟩
      [ScanStep.claim wRowOneDue]).durable = wDbOneDue :=
  (scan_durable_only_at_final_commit wDbOneDue 1000 gwAllOk gwErrC).1
    [ScanStep.claim wRowOneDue]
    [ScanStep.outcome wRowOneDue true, ScanStep.commit]
    (by decide) (by decide)

/-! ## Claim C8 -/

/-- C8: the bulk-schedule recipient set is the deduplicated union of
active contacts across the selected owned groups — a contact belonging to
two selected groups appears exactly once in the resolved set, the
operation creates exactly one ScheduledMessages row per resolved contact
(in particular one for that shared contact), and the single debit ledger
row is for (number of distinct resolved contacts) × 32.0. -/
theorem bulk_schedule_dedup (db : DB) (uid : String) (req : ValidBulkRequest)
    (user : User) (hu : findUser db uid = some user)
    (c : Contact) (hc : c ∈ db.contacts) (hact : c.is_active = true)
    (g1 g2 : ContactGroup) (hg1 : g1 ∈ db.groups) (hg2 : g2 ∈ db.groups)
    (m1 m2 : GroupMember) (hm1 : m1 ∈ db.members) (hm2 : m2 ∈ db.members)
    (hm1c : m1.contact_id = c.id) (hm1g : m1.group_id = g1.id)
    (hm2c : m2.contact_id = c.id) (hm2g : m2.group_id = g2.id)
    (hsel1 : g1.id ∈ req.group_ids) (hsel2 : g2.id ∈ req.group_ids)
    (hown1 : g1.user_id = uid) (hown2 : g2.user_id = uid)
    (hgne : g1.id ≠ g2.id)
    (hnd : db.contacts.Nodup)
    (hbal : ¬ user.wallet_balance <
      ((resolveGroupContacts db uid req.group_ids).length : Money) * 32) :
    List.count c (resolveGroupContacts db uid req.group_ids) = 1 ∧
    ∃ rows db', schedule_bulk_sms db uid req = (.ok rows, db') ∧
      rows.length = (resolveGroupContacts db uid req.group_ids).length ∧
      rows.map ScheduledMessage.recipient =
        (resolveGroupContacts db uid req.group_ids).map Contact.phone_number ∧
      db'.scheduled = db.scheduled ++ rows ∧
      db'.transactions = db.transactions ++
        [⟨uid, -(((resolveGroupContacts db uid req.group_ids).length : Money) * 32),
          "sms_scheduled", none⟩] := by
  have hcmem : c ∈ resolveGroupContacts db uid req.group_ids := by
    unfold resolveGroupContacts
    rw [List.mem_filter]
    refine ⟨hc, ?_⟩
    simp only [Bool.decide_and, Bool.and_eq_true, decide_eq_true_eq]
    refine ⟨hact, ?_⟩
    unfold contactInSelectedGroups
    rw [List.any_eq_true]
    refine ⟨m1, hm1, ?_⟩
    simp only [decide_eq_true_eq, List.any_eq_true]
    exact ⟨hm1c, g1, hg1, by simp [hm1g, hsel1, hown1]⟩
  have hcount : List.count c (resolveGroupContacts db uid req.group_ids) = 1 :=
    List.count_eq_one_of_mem (hnd.filter _) hcmem
  refine ⟨hcount, ?_⟩
  have hne : ¬ (resolveGroupContacts db uid req.group_ids).isEmpty = true := by
    cases he : resolveGroupContacts db uid req.group_ids with
    | nil => rw [he] at hcmem; exact absurd hcmem (List.not_mem_nil c)
    | cons x xs => simp
  have hrun : schedule_bulk_sms db uid req =
      (.ok (mkBulkSchedules uid req.message req.sender_id req.scheduled_time
          db.nextScheduleId (resolveGroupContacts db uid req.group_ids)),
        { appendTxn (updateUserBalance db uid
              (-(((resolveGroupContacts db uid req.group_ids).length : Money) * 32)))
            ⟨uid, -(((resolveGroupContacts db uid req.group_ids).length : Money) * 32),
              "sms_scheduled", none⟩ with
          scheduled := db.scheduled ++ mkBulkSchedules uid req.message req.sender_id
            req.scheduled_time db.nextScheduleId (resolveGroupContacts db uid req.group_ids)
          nextScheduleId := db.nextScheduleId +
            (resolveGroupContacts db uid req.group_ids).length }) := by
    unfold schedule_bulk_sms
    rw [hu]
    simp only []
    rw [if_neg hne, if_neg hbal]
    rfl
  exact ⟨mkBulkSchedules uid req.message req.sender_id req.scheduled_time
      db.nextScheduleId (resolveGroupContacts db uid req.group_ids), _, hrun,
    mkBulkSchedules_length _ _ _ _ _ _, mkBulkSchedules_recipients _ _ _ _ _ _, rfl, rfl⟩

/-- Witness for C8: contact 1 of `wDbGroups` is in both selected groups 1
and 2 yet is resolved once; the two distinct contacts yield two rows and
one debit of 64. -/
theorem bulk_schedule_dedup_witness :
    List.count (⟨1, "u1", "+256700000001", true⟩ : Contact)
      (resolveGroupContacts wDbGroups "u1" [1, 2]) = 1 ∧
    ∃ rows db', schedule_bulk_sms wDbGroups "u1" ⟨"hello", [1, 2], 500, none⟩ =
        (.ok rows, db') ∧
      rows.length = (resolveGroupContacts wDbGroups "u1" [1, 2]).length ∧
      rows.map ScheduledMessage.recipient =
        (resolveGroupContacts wDbGroups "u1" [1, 2]).map Contact.phone_number ∧
      db'.scheduled = wDbGroups.scheduled ++ rows ∧
      db'.transactions = wDbGroups.transactions ++
        [⟨"u1", -(((resolveGroupContacts wDbGroups "u1" [1, 2]).length : Money) * 32),
          "sms_scheduled", none⟩] :=
  bulk_schedule_dedup wDbGroups "u1" ⟨"hello", [1, 2], 500, none⟩
    ⟨"u1", "clerk1", "a@b.co", "alice", 100⟩ (by decide)
    ⟨1, "u1", "+256700000001", true⟩ (by decide) (by decide)
    ⟨1, "u1", "g1"⟩ ⟨2, "u1", "g2"⟩ (by decide) (by decide)
    ⟨1, 1⟩ ⟨1, 2⟩ (by decide) (by decide)
    (by decide) (by decide) (by decide) (by decide)
    (by decide) (by decide) (by decide) (by decide)
    (by decide) (by decide) (by decide)

/-! ## Claim C9 -/

/-- C9 counterexample: both the timer job and the manual process-due
endpoint run `process_scheduled_messages`; two invocations that read the
same due item while it was `pending` both process it.  Scan A sends the
item and commits (one Message row); scan B, whose due query ran against
the pre-A store, re-claims and re-processes the same row from its stale
snapshot — a second gateway send and a second Message row — refuting
"exactly one transitions it and the other claims nothing". -/
theorem double_claim_cex :
    dueList wDbOneDue 1000 = [wRowOneDue] ∧
    (process_scheduled_messages wDbOneDue 1000 gwAllOk gwErrC).messages.length = 1 ∧
    (processSnapshot 1000 gwAllOk gwErrC
        (process_scheduled_messages wDbOneDue 1000 gwAllOk gwErrC)
        (dueList wDbOneDue 1000)).messages.length = 2 := by
  exact ⟨rfl, rfl, rfl⟩

/-- C9 amended: the pending→processing claim is an unconditional in-session
assignment with no re-check of the stored row's status, so it provides no
at-most-one-claimant guarantee at the row level: a second scan working
from a snapshot taken before the first scan's commit fully re-processes
the item (two gateway sends, two Message rows over the two scans).
Overlap is prevented only for the timer job itself, by the scheduler's
max_instances=1/coalesce configuration, which does not cover the manual
process-due endpoint. -/
theorem stale_scan_reprocesses (db : DB) (now now2 : Int) (gw : Nat → Bool)
    (gwErr : Nat → String) (s : ScheduledMessage)
    (hdue : dueList db now = [s]) (hgw : gw s.id = true) :
    (processSnapshot now2 gw gwErr
        (process_scheduled_messages db now gw gwErr) [s]).messages.length
      = db.messages.length + 2 := by
  unfold process_scheduled_messages
  rw [hdue]
  show (processOne now2 gw gwErr (processOne now gw gwErr db s) s).messages.length = _
  rw [processOne_messages_length, processOne_messages_length, hgw]
  simp

/-- Witness for C9 (amended): the one-item store double-processed ends
with two Message rows. -/
theorem stale_scan_reprocesses_witness :
    (processSnapshot 1000 gwAllOk gwErrC
        (process_scheduled_messages wDbOneDue 1000 gwAllOk gwErrC)
        [wRowOneDue]).messages.length
      = wDbOneDue.messages.length + 2 :=
  stale_scan_reprocesses wDbOneDue 1000 1000 gwAllOk gwErrC wRowOneDue
    (by decide) (by decide)

/-! ## Claim C10 -/

theorem find?_balanceUpdate (l : List User) (uid : String) (δ : Money) :
    (l.map (fun u => if u.id = uid then
        { u with wallet_balance := u.wallet_balance + δ } else u)).find?
          (fun u => u.id = uid) =
      (l.find? (fun u => u.id = uid)).map
        (fun u => { u with wallet_balance := u.wallet_balance + δ }) := by
  induction l with
  | nil => rfl
  | cons a l ih =>
    by_cases hc : a.id = uid
    · rw [List.map_cons, if_pos hc]
      rw [List.find?_cons_of_pos _ (by simpa using hc),
        List.find?_cons_of_pos _ (by simpa using hc)]
      rfl
    · rw [List.map_cons, if_neg hc]
      rw [List.find?_cons_of_neg _ (by simpa using hc),
        List.find?_cons_of_neg _ (by simpa using hc)]
      exact ih

/-- C10: the developer-API send debits only after the gateway reports
success.  Every gateway failure — an exception, missing response data, or
no recipient with status Success — makes the operation fail with an error
and leaves the store unchanged (wallet, Transactions log and Messages
table included); only in the success case are the `sent` Message rows
created and a single `sms_deduction` Transaction of recipients × 32.0
recorded, with the wallet debited by that amount. -/
theorem dev_send_debit_only_on_success (db : DB) (uid msg : String)
    (recipients : List String) (resp : GwResponse) (u : User)
    (hu : findUser db uid = some u) :
    (gwFailed resp →
      ∃ e, client_send_sms db uid msg recipients resp = (.error e, db)) ∧
    (∀ rs, resp = .data rs → rs ≠ [] → (∃ r ∈ rs, r.2 = "Success") →
      ¬ u.wallet_balance < (recipients.length : Money) * 32 →
      ∃ db', client_send_sms db uid msg recipients resp =
          (.ok (mkSentMessages uid msg db.nextMessageId recipients), db') ∧
        db'.transactions = db.transactions ++
          [⟨uid, -((recipients.length : Money) * 32), "sms_deduction", none⟩] ∧
        db'.messages = db.messages ++ mkSentMessages uid msg db.nextMessageId recipients ∧
        findUser db' uid = some { u with wallet_balance :=
          u.wallet_balance + -((recipients.length : Money) * 32) }) := by
  constructor
  · intro hfail
    unfold client_send_sms
    rw [hu]
    simp only []
    by_cases hb : u.wallet_balance < (recipients.length : Money) * 32
    · rw [if_pos hb]
      exact ⟨.insufficientBalance, rfl⟩
    · rw [if_neg hb]
      cases resp with
      | exn e => exact ⟨.serverError e, rfl⟩
      | missingData => exact ⟨_, rfl⟩
      | data rs =>
        unfold gwFailed at hfail
        have hcond : (rs.isEmpty ∨ ¬ rs.any (fun r => r.2 = "Success")) := by
          rcases hfail with hfail | hfail
          · left; rw [hfail]; rfl
          · right
            rw [List.any_eq_true]
            rintro ⟨r, hr, hsucc⟩
            exact hfail r hr (by simpa using hsucc)
        simp only []
        rw [if_pos hcond]
        exact ⟨_, rfl⟩
  · rintro rs rfl hne hsucc hb
    unfold client_send_sms
    rw [hu]
    simp only []
    rw [if_neg hb]
    have hcond : ¬ (rs.isEmpty ∨ ¬ rs.any (fun r => r.2 = "Success")) := by
      rintro (hx | hx)
      · cases rs with
        | nil => exact hne rfl
        | cons a l => simp at hx
      · apply hx
        rw [List.any_eq_true]
        obtain ⟨r, hr, hs⟩ := hsucc
        exact ⟨r, hr, by simpa using hs⟩
    rw [if_neg hcond]
    refine ⟨_, rfl, rfl, rfl, ?_⟩
    show findUser (updateUserBalance db uid (-((recipients.length : Money) * 32))) uid = _
    unfold findUser at hu ⊢
    rw [updateUserBalance_users, find?_balanceUpdate, hu]
    rfl

/-- Witness for C10: with user balance 100 and one recipient, the
missing-data failure leaves the store unchanged, and a Success response
debits 32 with one deduction row. -/
theorem dev_send_debit_only_on_success_witness :
    (∃ e, client_send_sms wDbDev "u1" "hi" ["+256700000001"] .missingData =
      (.error e, wDbDev)) ∧
    ∃ db', client_send_sms wDbDev "u1" "hi" ["+256700000001"]
        (.data [("+256700000001", "Success")]) =
        (.ok (mkSentMessages "u1" "hi" wDbDev.nextMessageId ["+256700000001"]), db') ∧
      db'.transactions = wDbDev.transactions ++
        [⟨"u1", -(((["+256700000001"] : List String).length : Money) * 32),
          "sms_deduction", none⟩] ∧
      db'.messages = wDbDev.messages ++
        mkSentMessages "u1" "hi" wDbDev.nextMessageId ["+256700000001"] ∧
      findUser db' "u1" = some ⟨"u1", "clerk1", "a@b.co", "alice",
        (100 : Money) + -(((["+256700000001"] : List String).length : Money) * 32)⟩ := by
  constructor
  · exact (dev_send_debit_only_on_success wDbDev "u1" "hi" ["+256700000001"] .missingData
      ⟨"u1", "clerk1", "a@b.co", "alice", 100⟩ (by decide)).1 trivial
  · exact (dev_send_debit_only_on_success wDbDev "u1" "hi" ["+256700000001"]
      (.data [("+256700000001", "Success")])
      ⟨"u1", "clerk1", "a@b.co", "alice", 100⟩ (by decide)).2
      [("+256700000001", "Success")] rfl (by decide)
      ⟨("+256700000001", "Success"), by decide, rfl⟩ (by decide)

end Luco

